import Mathlib

/-!
Verification of the tamwoil back-office data-consistency layer.

The development shallowly embeds the two pieces of the repository that carry
its design weight:

* the document-store access shim (`src/lib/db-adapter.ts`): a generic model of
  documents as association lists of JSON-like values, with the shim's
  `update` (increment / array-union / dot-path emulation), `set` (upsert),
  `query` (condition translation) and sequential pseudo-transaction runner;

* the server action layer (`src/lib/actions.ts`): a typed model of the domain
  rows (users, orders, temp orders, transactions, representatives, creditors,
  settings) and of the action functions the claims are about, written in
  explicit state-passing style.  Store failures are injected through a
  `Fault` record (read failures make the relational client report an error on
  select, write failures on insert/update/upsert/delete), mirroring the
  `(data, error)` contract of the external client.  JavaScript numbers are
  modelled as `Int`; `Math.random` identifier generation is modelled by
  explicit identifier parameters.

Part 1 below is the shared association-list machinery: rows of a table are a
`List (String × α)` keyed by the id column, and the lemmas track how sums and
counts over a table change across the relational primitives.
-/

set_option linter.unusedVariables false

set_option linter.unreachableTactic false

/-- `select * where id = k` (first matching row; the id column is a key). -/
def findRow {α : Type} : List (String × α) → String → Option α
  | [], _ => none
  | p :: t, k => if p.1 = k then some p.2 else findRow t k

/-- `update ... where id = k`: rewrite every row whose id is `k` (a silent
no-op when no row matches, as the relational client reports no error). -/
def updateRows {α : Type} : List (String × α) → String → (α → α) → List (String × α)
  | [], _, _ => []
  | p :: t, k, f => (if p.1 = k then (p.1, f p.2) else p) :: updateRows t k f

/-- `upsert`: replace the row with id `k` if present, otherwise append it. -/
def upsertRow {α : Type} (l : List (String × α)) (k : String) (v : α) : List (String × α) :=
  match findRow l k with
  | some _ => updateRows l k (fun _ => v)
  | none => l ++ [(k, v)]

/-- `delete ... where id = k` (succeeds silently when no row matches). -/
def eraseRow {α : Type} : List (String × α) → String → List (String × α)
  | [], _ => []
  | p :: t, k => if p.1 = k then eraseRow t k else p :: eraseRow t k

/-- Integer-valued sum of a row function over a table. -/
def isum {α : Type} : List (String × α) → (String → α → Int) → Int
  | [], _ => 0
  | p :: t, f => f p.1 p.2 + isum t f

/-- The id column is a genuine key: no two rows share an id. -/
def keysNodup {α : Type} (l : List (String × α)) : Prop := (l.map Prod.fst).Nodup

/-!
Part 2: the document-store access shim (`src/lib/db-adapter.ts`) over generic
JSON-like documents.  A document is an association list of field names to
values; a store is a set of tables keyed by collection name.  The shim's
`doc(col, id).update(data)` distinguishes, per key of the payload, dot-path
nesting, the `{__op: 'increment', value}` and `{__op: 'arrayUnion', value}`
sentinels, and plain overwrites; whenever a sentinel or dotted key is present
the whole call becomes fetch-current-row / apply-in-memory / write-back.
JavaScript numbers are modelled as `Int`; `Number(x) || 0` coercion is
`jsNumberOr0`; numeric strings are restricted to integer literals.
-/

inductive JVal
  | num (n : Int)
  | str (s : String)
  | boolean (b : Bool)
  | null
  | arr (elems : List JVal)
  | obj (fields : List (String × JVal))

/-- A document: field names to values (the `id` column included). -/
abbrev GDoc := List (String × JVal)

/- Structural equality of values, standing in for the equality the
JavaScript runtime and the relational client apply (`includes`, `eq`
filters); object identity of the original is approximated structurally. -/
mutual
def jeq : JVal → JVal → Bool
  | .num a, .num b => a == b
  | .str a, .str b => a == b
  | .boolean a, .boolean b => a == b
  | .null, .null => true
  | .arr a, .arr b => jeqL a b
  | .obj a, .obj b => jeqF a b
  | _, _ => false

def jeqL : List JVal → List JVal → Bool
  | [], [] => true
  | x :: xs, y :: ys => jeq x y && jeqL xs ys
  | _, _ => false

def jeqF : List (String × JVal) → List (String × JVal) → Bool
  | [], [] => true
  | (k1, v1) :: xs, (k2, v2) :: ys => k1 == k2 && jeq v1 v2 && jeqF xs ys
  | _, _ => false
end

/-- One value of an `update` payload: a plain value or an operator sentinel
(`increment(value)` / `arrayUnion(value)` from the adapter's helpers). -/
inductive UVal
  | plain (v : JVal)
  | increment (n : Int)
  | arrayUnion (v : JVal)

/-- The stored shape of a payload value: sentinels are the plain objects the
`increment` / `arrayUnion` helpers build, which is what a dot-path assignment
would write verbatim. -/
def uvalToJ : UVal → JVal
  | .plain v => v
  | .increment n => JVal.obj [("__op", JVal.str "increment"), ("value", JVal.num n)]
  | .arrayUnion v => JVal.obj [("__op", JVal.str "arrayUnion"), ("value", v)]

def objGet (fields : GDoc) (k : String) : Option JVal := findRow fields k

def objSet (fields : GDoc) (k : String) (v : JVal) : GDoc :=
  match findRow fields k with
  | some _ => updateRows fields k (fun _ => v)
  | none => fields ++ [(k, v)]

/-- JavaScript `Number(x)`, composed with the `|| 0` fallback the adapter
applies: `NaN` and `0` both collapse to `0`.  String parsing is restricted to
integer literals (numbers are modelled as `Int`); a non-numeric string is
`NaN`, hence `0`. -/
def jsNum : JVal → Int
  | .num n => n
  | .null => 0
  | .boolean b => if b then 1 else 0
  | .str s => if s = "" then 0 else (s.toInt?).getD 0
  | .arr [] => 0
  | .arr [v] => jsNum v
  | .arr (_ :: _ :: _) => 0
  | .obj _ => 0

def jsNumberOr0 : Option JVal → Int
  | none => 0
  | some v => jsNum v

/-- JavaScript falsiness, for the `if (!target[parts[i]]) target[parts[i]] = {}`
step of the dot-path walk. -/
def isFalsyJ : JVal → Bool
  | .null => true
  | .num n => n == 0
  | .str s => s == ""
  | .boolean b => !b
  | .arr _ => false
  | .obj _ => false

inductive GErr
  | docNotFound
  | storeError
  | typeError
deriving DecidableEq, Repr

/-- The dot-path walk of the adapter: missing or falsy intermediates are
replaced by fresh empty objects; writing a property through a truthy
non-object intermediate is the strict-mode `TypeError` of the original
(module code runs in strict mode).  JavaScript arrays technically accept
named properties; that corner is not exercised by any payload of the
repository and is folded into the error case. -/
def setPath (fields : GDoc) : List String → JVal → Except GErr GDoc
  | [], _ => .ok fields
  | [k], v => .ok (objSet fields k v)
  | k :: k2 :: rest, v =>
    let child := match objGet fields k with
      | some c => if isFalsyJ c then JVal.obj [] else c
      | none => JVal.obj []
    match child with
    | JVal.obj co =>
      match setPath co (k2 :: rest) v with
      | .ok co' => .ok (objSet fields k (JVal.obj co'))
      | .error e => .error e
    | _ => .error GErr.typeError

/-- Detection of operator sentinels in an update payload
(`Object.values(data).some(val => val && typeof val === 'object' && val.__op)`). -/
def hasSpecialOps (payload : List (String × UVal)) : Bool :=
  payload.any (fun p => match p.2 with | .plain _ => false | _ => true)

/-- `key.includes('.')`, written over the string's character list. -/
def keyHasDot (k : String) : Bool := k.data.any (fun c => c == '.')

/-- `Object.keys(data).some(k => k.includes('.'))`. -/
def hasDottedKeys (payload : List (String × UVal)) : Bool :=
  payload.any (fun p => keyHasDot p.1)

/-- Application of one payload key in the fetch-modify-write branch, in the
order the adapter checks: dotted key first, then increment, then array-union,
then plain overwrite. -/
def applyKey (row : GDoc) (k : String) (uv : UVal) : Except GErr GDoc :=
  if keyHasDot k then
    setPath row (k.splitOn ".") (uvalToJ uv)
  else
    match uv with
    | .increment n => .ok (objSet row k (JVal.num (jsNumberOr0 (objGet row k) + n)))
    | .arrayUnion v =>
      let cur := match objGet row k with
        | some (JVal.arr l) => l
        | _ => []
      .ok (objSet row k (JVal.arr (if cur.any (fun w => jeq w v) then cur else cur ++ [v])))
    | .plain v => .ok (objSet row k v)

def applyKeys (row : GDoc) : List (String × UVal) → Except GErr GDoc
  | [] => .ok row
  | (k, uv) :: rest =>
    match applyKey row k uv with
    | .ok row' => applyKeys row' rest
    | .error e => .error e

/-- A store: collection name to rows (rows keyed by the id column). -/
structure GStore where
  tables : List (String × List (String × GDoc))

def GStore.rows (st : GStore) (col : String) : List (String × GDoc) :=
  (findRow st.tables col).getD []

def GStore.setRows (st : GStore) (col : String) (rows : List (String × GDoc)) : GStore :=
  { tables := upsertRow st.tables col rows }

/-- `doc(col, id).set(data, options)`: both the merge and non-merge branches
upsert `{...data, id}` identically. -/
def gDocSet (st : GStore) (col id : String) (d : GDoc) : GStore :=
  st.setRows col (upsertRow (st.rows col) id (objSet d "id" (JVal.str id)))

/-- `doc(col, id).delete()`: unconditional delete by id. -/
def gDocDelete (st : GStore) (col id : String) : GStore :=
  st.setRows col (eraseRow (st.rows col) id)

/-- Plain partial update (the no-sentinel, no-dot branch): set the listed
columns on the matching row; a missing row is a silent no-op. -/
def mergePlain (row : GDoc) : List (String × UVal) → GDoc
  | [] => row
  | (k, UVal.plain v) :: rest => mergePlain (objSet row k v) rest
  | (_, _) :: rest => mergePlain row rest

/-- `doc(col, id).update(data)`: fetch-modify-write when any key carries a
sentinel or a dot, failing with "Document not found for update" when the row
is absent; otherwise a direct partial write. -/
def gDocUpdate (st : GStore) (col id : String) (payload : List (String × UVal)) :
    Except GErr GStore :=
  if hasSpecialOps payload || hasDottedKeys payload then
    match findRow (st.rows col) id with
    | none => .error .docNotFound
    | some current =>
      match applyKeys current payload with
      | .error e => .error e
      | .ok updated => .ok (st.setRows col (updateRows (st.rows col) id (fun _ => updated)))
  else
    .ok (st.setRows col (updateRows (st.rows col) id (fun row => mergePlain row payload)))

/-- One condition of a shim query (`where(field, op, value)`); for `in` the
value is an array of candidates. -/
structure GCond where
  field : String
  op : String
  value : JVal

/-- Whether one condition accepts a document.  The source folds conditions
into the query builder and recognises exactly `==`, `in` and
`array-contains`; every other operator falls through with no else branch, so
the condition is silently dropped (modelled as accepting everything). -/
def condHolds (c : GCond) (d : GDoc) : Bool :=
  if c.op = "==" then
    match objGet d c.field with
    | some v => jeq v c.value
    | none => false
  else if c.op = "in" then
    match c.value with
    | JVal.arr cands =>
      match objGet d c.field with
      | some v => cands.any (fun w => jeq v w)
      | none => false
    | _ => false
  else if c.op = "array-contains" then
    match objGet d c.field with
    | some (JVal.arr l) => l.any (fun w => jeq w c.value)
    | _ => false
  else true

def supportedOp (c : GCond) : Bool :=
  c.op == "==" || c.op == "in" || c.op == "array-contains"

/-- `dbAdapter.query(collectionName, conditions)`: the rows satisfying the
conjunction of the recognised conditions. -/
def gQuery (st : GStore) (col : String) (conds : List GCond) : List (String × GDoc) :=
  (st.rows col).filter (fun p => conds.all (fun c => condHolds c p.2))

/-- One operation issued by a caller of `dbAdapter.runTransaction` through
the transaction handle. -/
inductive GTxOp
  | set (col id : String) (d : GDoc)
  | update (col id : String) (payload : List (String × UVal))

def applyGTxOp (st : GStore) : GTxOp → Except GErr GStore
  | .set col id d => .ok (gDocSet st col id d)
  | .update col id payload => gDocUpdate st col id payload

/-- `dbAdapter.runTransaction`: the caller's operations execute sequentially
and immediately; a thrown error aborts the remaining operations but already
applied writes are not rolled back. -/
def gRunTransaction : List GTxOp → GStore → Except GErr Unit × GStore
  | [], st => (.ok (), st)
  | op :: rest, st =>
    match applyGTxOp st op with
    | .ok st' => gRunTransaction rest st'
    | .error e => (.error e, st)

/-!
Part 3: the typed domain model of `src/lib/actions.ts`.  One row type per
collection the claims touch; the database state is one record of tables.
Store failures are injected through a `Fault` record: `read` makes every
select report an error (so `getDocs`/`query` return empty snapshots and
`doc.get()` reports a non-existing document, exactly as the adapter converts
read errors), `write` makes every insert/update/upsert/delete report an
error (which the adapter re-throws).  Actions are written in explicit
state-passing style: a value of `Except Err α × DB` is the action's result
together with the state the store was left in — an error result still
carries the partially updated state, because nothing is rolled back.
-/

inductive OrderStatus
  | pending | processed | ready | shipped
  | arrived_dubai | arrived_benghazi | arrived_tobruk
  | out_for_delivery | delivered | cancelled | paid
deriving DecidableEq, Repr

/-- The active-status enumeration of `recalculateUserStats` (everything
except `cancelled`). -/
def activeStatuses : List OrderStatus :=
  [.pending, .processed, .ready, .shipped, .arrived_dubai, .arrived_benghazi,
   .arrived_tobruk, .out_for_delivery, .delivered, .paid]

def statusStr : OrderStatus → String
  | .pending => "pending"
  | .processed => "processed"
  | .ready => "ready"
  | .shipped => "shipped"
  | .arrived_dubai => "arrived_dubai"
  | .arrived_benghazi => "arrived_benghazi"
  | .arrived_tobruk => "arrived_tobruk"
  | .out_for_delivery => "out_for_delivery"
  | .delivered => "delivered"
  | .cancelled => "cancelled"
  | .paid => "paid"

inductive TxType
  | order | payment | other
deriving DecidableEq, Repr

structure UserRow where
  name : String := ""
  username : String := ""
  phone : String := ""
  password : String := ""
  debt : Int := 0
  orderCount : Int := 0
  orderCounter : Int := 0
deriving DecidableEq, Repr

structure OrderRow where
  userId : String
  customerName : String := ""
  customerPhone : String := ""
  operationDate : String := ""
  status : OrderStatus := .pending
  sellingPriceLYD : Int := 0
  downPaymentLYD : Int := 0
  remainingAmount : Int := 0
  exchangeRate : Int := 1
  invoiceNumber : String := ""
  trackingId : String := ""
  productLinks : String := ""
  itemDescription : String := ""
  representativeId : Option String := none
  representativeName : Option String := none
  weightKG : Int := 0
  companyPricePerKiloUSD : Int := 0
  customerPricePerKilo : Int := 0
  customerWeightCost : Int := 0
  companyWeightCostUSD : Int := 0
  customerWeightCostUSD : Int := 0
  collectedAmount : Int := 0
  deliveryDate : String := ""
deriving DecidableEq, Repr

structure SubOrder where
  subOrderId : String := ""
  customerName : String := ""
  remainingAmount : Int := 0
  representativeId : Option String := none
  productLinks : String := ""
deriving DecidableEq, Repr

structure TempOrderRow where
  invoiceName : String := ""
  assignedUserId : Option String := none
  assignedUserName : Option String := none
  parentInvoiceId : Option String := none
  status : OrderStatus := .pending
  totalAmount : Int := 0
  remainingAmount : Int := 0
  subOrders : List SubOrder := []
  createdAt : String := ""
deriving DecidableEq, Repr

structure TxRow where
  orderId : Option String := none
  customerId : String := ""
  customerName : String := ""
  date : String := ""
  type_ : TxType := .other
  status : String := ""
  amount : Int := 0
  description : String := ""
deriving DecidableEq, Repr

structure RepRow where
  name : String := ""
  username : String := ""
  assignedOrders : Int := 0
deriving DecidableEq, Repr

structure CreditorRow where
  name : String := ""
  totalDebt : Int := 0
deriving DecidableEq, Repr

structure ExternalDebtRow where
  creditorId : String := ""
  creditorName : String := ""
  amount : Int := 0
  date : String := ""
  status : String := ""
  notes : String := ""
deriving DecidableEq, Repr

structure SettingsRow where
  exchangeRate : Int := 1
  pricePerKiloLYD : Int := 0
  pricePerKiloUSD : Int := 0
deriving DecidableEq, Repr

/-- The store: one table per collection the embedded actions use. -/
structure DB where
  users : List (String × UserRow) := []
  orders : List (String × OrderRow) := []
  tempOrders : List (String × TempOrderRow) := []
  transactions : List (String × TxRow) := []
  representatives : List (String × RepRow) := []
  creditors : List (String × CreditorRow) := []
  externalDebts : List (String × ExternalDebtRow) := []
  settings : List (String × SettingsRow) := []
deriving DecidableEq, Repr

/-- Store-failure injection: `read` fails every select, `write` fails every
mutation. -/
structure Fault where
  read : Bool := false
  write : Bool := false
deriving DecidableEq, Repr

def noFault : Fault := {}

inductive Err
  | storeErr
  | docNotFound
  | userNotFound
  | orderNotFound
  | txNotFound
  | tempOrderNotFound
deriving DecidableEq, Repr

/-- JavaScript truthiness of an optional string field (`null` and the empty
string are both falsy). -/
def optStrTruthy : Option String → Option String
  | none => none
  | some s => if s = "" then none else some s

/-- `String(n).padStart(2, '0')`. -/
def pad2 (n : Int) : String :=
  let s := toString n
  if s.length < 2 then "0" ++ s else s

/-- `snapshot.forEach(doc => totalDebt += doc.data().remainingAmount || 0)`. -/
def sumRemaining : List (String × OrderRow) → Int
  | [] => 0
  | p :: t => p.2.remainingAmount + sumRemaining t

/-- The temp-order pass of the recalculation: add `remainingAmount` of every
queried temp order whose status is not `cancelled`. -/
def tempSum : List (String × TempOrderRow) → Int
  | [] => 0
  | p :: t => (if p.2.status = OrderStatus.cancelled then 0 else p.2.remainingAmount) + tempSum t

/-- The first query of `recalculateUserStats`:
`where("userId", "==", userId), where("status", "in", activeStatuses)`
(an empty snapshot when the select fails). -/
def activeOrdersOf (ft : Fault) (s : DB) (userId : String) : List (String × OrderRow) :=
  if ft.read then []
  else s.orders.filter (fun p => decide (p.2.userId = userId ∧ p.2.status ∈ activeStatuses))

/-- The second query of `recalculateUserStats`:
`where("assignedUserId", "==", userId), where("parentInvoiceId", "==", null)`. -/
def directTempsOf (ft : Fault) (s : DB) (userId : String) : List (String × TempOrderRow) :=
  if ft.read then []
  else s.tempOrders.filter
    (fun p => decide (p.2.assignedUserId = some userId ∧ p.2.parentInvoiceId = none))

/-- `recalculateUserStats(userId)`: re-derive debt and order count from the
active orders and the unconverted directly-assigned temp orders, then write
the two fields back to the user row.  Errors are re-thrown to the caller. -/
def recalculateUserStats (ft : Fault) (userId : String) (s : DB) : Except Err Unit × DB :=
  let orderDocs := activeOrdersOf ft s userId
  let orderCount : Int := orderDocs.length
  let tempDocs := directTempsOf ft s userId
  let totalDebt := sumRemaining orderDocs + tempSum tempDocs
  let newUsers :=
    updateRows s.users userId (fun u => { u with debt := totalDebt, orderCount := orderCount })
  if ft.write then (.error .storeErr, s)
  else (.ok (), { s with users := newUsers })

def defaultSettings : SettingsRow := { exchangeRate := 1, pricePerKiloLYD := 0, pricePerKiloUSD := 0 }

/-- `getAppSettings()`: read the singleton settings row, lazily creating it
with defaults; every failure is caught and the defaults returned. -/
def getAppSettings (ft : Fault) (s : DB) : SettingsRow × DB :=
  if ft.read then
    -- the select fails, the snapshot reports "does not exist": the
    -- create-defaults branch runs; a failing write is caught
    if ft.write then (defaultSettings, s)
    else (defaultSettings, { s with settings := upsertRow s.settings "main" defaultSettings })
  else
    match findRow s.settings "main" with
    | some row => (row, s)
    | none =>
      if ft.write then (defaultSettings, s)
      else (defaultSettings, { s with settings := upsertRow s.settings "main" defaultSettings })

/-- `getUserById(userId)`: recalculate the user's stats first, then fetch the
row; fall back to a synthesised user from a temp order of the same id; all
errors are caught and `null` returned. -/
def getUserById (ft : Fault) (userId : String) (s : DB) :
    Except Err (Option (String × UserRow)) × DB :=
  match recalculateUserStats ft userId s with
  | (Except.error _, s1) => (.ok none, s1)
  | (Except.ok _, s1) =>
    match (if ft.read then none else findRow s1.users userId) with
    | some u => (.ok (some (userId, u)), s1)
    | none =>
      match (if ft.read then none else findRow s1.tempOrders userId) with
      | some t =>
        (.ok (some (userId,
          { name := t.invoiceName, username := t.invoiceName, phone := "",
            orderCount := (t.subOrders.length : Int), debt := t.remainingAmount })), s1)
      | none => (.ok none, s1)

/-- The caller-supplied payload of `addOrder` (`Omit<Order, id | invoiceNumber>`;
the `remainingAmount` and `exchangeRate` fields are recomputed inside). -/
structure OrderInput where
  userId : String
  customerName : String := ""
  customerPhone : String := ""
  operationDate : String := ""
  sellingPriceLYD : Int := 0
  downPaymentLYD : Int := 0
  status : OrderStatus := .pending
  productLinks : String := ""
  itemDescription : String := ""
  exchangeRate : Int := 0
  trackingId : String := ""
  remainingAmount : Int := 0
deriving DecidableEq, Repr

/-- The `Math.random`-generated identifiers `addOrder` draws: the new order
id, the two transaction ids, and the fallback tracking id. -/
structure GenIds where
  orderId : String := ""
  orderTxId : String := ""
  payTxId : String := ""
  trackingId : String := ""
deriving DecidableEq, Repr

/-- `addOrder(orderData)`: inside the pseudo-transaction, load the owning
user (failing if absent), snapshot the exchange rate, derive the invoice
number from the per-user counter, compute
`remainingAmount = sellingPriceLYD - downPaymentLYD`, write the order, write
an `order`-type transaction for the full selling price, write a `payment`
transaction when a positive down payment exists, and increment the user's
`orderCounter`; afterwards refetch the order and recalculate the user's
stats.  Every error is caught and `null` returned (writes already applied
stay applied). -/
def addOrder (ft : Fault) (ids : GenIds) (od : OrderInput) (s : DB) :
    Except Err (Option (String × OrderRow)) × DB :=
  match (if ft.read then none else findRow s.users od.userId) with
  | none => (.ok none, s)
  | some userData =>
    let settingsPair := getAppSettings ft s
    let settings := settingsPair.1
    let s1 := settingsPair.2
    let newOrderCount := userData.orderCounter + 1
    let invoiceNumber := userData.username ++ "-" ++ pad2 newOrderCount
    let finalTrackingId := if od.trackingId = "" then ids.trackingId else od.trackingId
    let remainingAmount := od.sellingPriceLYD - od.downPaymentLYD
    let row : OrderRow :=
      { userId := od.userId, customerName := od.customerName,
        customerPhone := od.customerPhone, operationDate := od.operationDate,
        status := od.status, sellingPriceLYD := od.sellingPriceLYD,
        downPaymentLYD := od.downPaymentLYD, remainingAmount := remainingAmount,
        exchangeRate := settings.exchangeRate, invoiceNumber := invoiceNumber,
        trackingId := finalTrackingId, productLinks := od.productLinks,
        itemDescription := od.itemDescription }
    if ft.write then (.ok none, s1)
    else
      let s2 := { s1 with orders := upsertRow s1.orders ids.orderId row }
      let orderTx : TxRow :=
        { orderId := some ids.orderId, customerId := od.userId,
          customerName := od.customerName, date := od.operationDate,
          type_ := TxType.order, status := statusStr od.status,
          amount := od.sellingPriceLYD,
          description := "انشاء طلب جديد " ++ invoiceNumber }
      let s3 := { s2 with transactions := upsertRow s2.transactions ids.orderTxId orderTx }
      let payTx : TxRow :=
        { orderId := some ids.orderId, customerId := od.userId,
          customerName := od.customerName, date := od.operationDate,
          type_ := TxType.payment, status := "paid",
          amount := od.downPaymentLYD,
          description := "دفعة مقدمة للطلب " ++ invoiceNumber }
      let s4 := if od.downPaymentLYD > 0
        then { s3 with transactions := upsertRow s3.transactions ids.payTxId payTx }
        else s3
      -- transaction.update(userRef, { orderCounter: increment(1) }): the
      -- operator sentinel forces fetch-modify-write, erroring when absent
      match (if ft.read then none else findRow s4.users od.userId) with
      | none => (.ok none, s4)
      | some _ =>
        let s5 := { s4 with users :=
          (updateRows s4.users od.userId (fun u => { u with orderCounter := u.orderCounter + 1 })) }
        match (if ft.read then none else findRow s5.orders ids.orderId) with
        | none => (.ok none, s5)
        | some newRow =>
          match recalculateUserStats ft newRow.userId s5 with
          | (Except.error _, s6) => (.ok none, s6)
          | (Except.ok _, s6) => (.ok (some (ids.orderId, newRow)), s6)

/-- `updateOrder(orderId, data)`: check existence, apply the partial update
(modelled as a row function), recalculate the owning user. -/
def updateOrder (ft : Fault) (orderId : String) (f : OrderRow → OrderRow) (s : DB) :
    Except Err Bool × DB :=
  match (if ft.read then none else findRow s.orders orderId) with
  | none => (.ok false, s)
  | some o =>
    let userId := o.userId
    if ft.write then (.ok false, s)
    else
      let s1 := { s with orders := updateRows s.orders orderId f }
      if userId ≠ "" then
        match recalculateUserStats ft userId s1 with
        | (Except.error _, s2) => (.ok false, s2)
        | (Except.ok _, s2) => (.ok true, s2)
      else (.ok true, s1)

/-- The tail of `addTransaction`: write the ledger row, then recalculate the
customer when it is a real (non-`TEMP-`) user id. -/
def addTransactionRest (ft : Fault) (tidNew : String) (txd : TxRow) (s : DB) :
    Except Err (Option String) × DB :=
  if ft.write then (.ok none, s)
  else
    let s1 := { s with transactions := upsertRow s.transactions tidNew txd }
    if txd.customerId ≠ "" ∧ txd.customerId.startsWith "TEMP-" = false then
      match recalculateUserStats ft txd.customerId s1 with
      | (Except.error _, s2) => (.ok none, s2)
      | (Except.ok _, s2) => (.ok (some tidNew), s2)
    else (.ok (some tidNew), s1)

/-- `addTransaction(transactionData)`: for a payment naming an order, reduce
the order's `remainingAmount` by the amount (floored at zero); always write
the ledger row; recalculate the customer; errors are caught and `null`
returned. -/
def addTransaction (ft : Fault) (tidNew : String) (txd : TxRow) (s : DB) :
    Except Err (Option String) × DB :=
  match (if txd.type_ = TxType.payment then optStrTruthy txd.orderId else none) with
  | some oid =>
    (match (if ft.read then none else findRow s.orders oid) with
     | some o =>
       let newRemaining := o.remainingAmount - txd.amount
       let clamped := if newRemaining < 0 then 0 else newRemaining
       if ft.write then (.ok none, s)
       else
         let s1 := { s with orders :=
           (updateRows s.orders oid (fun oo => { oo with remainingAmount := clamped })) }
         addTransactionRest ft tidNew txd s1
     | none => addTransactionRest ft tidNew txd s)
  | none => addTransactionRest ft tidNew txd s

/-- The tail of `updateTransaction`: refetch the ledger row and recalculate
the customer when it is a real user id. -/
def updateTransactionPost (ft : Fault) (transactionId : String) (s : DB) :
    Except Err Bool × DB :=
  match (if ft.read then none else findRow s.transactions transactionId) with
  | some t =>
    if t.customerId ≠ "" ∧ t.customerId.startsWith "TEMP-" = false then
      match recalculateUserStats ft t.customerId s with
      | (Except.error _, s1) => (.ok false, s1)
      | (Except.ok _, s1) => (.ok true, s1)
    else (.ok true, s)
  | none => (.ok true, s)

/-- `updateTransaction(transactionId, newAmount)`: set the new amount, then
apply `increment(-difference)` to the referenced order's `remainingAmount`
(an operator update, erroring when the order row is absent — the already
written amount is not rolled back); recalculate; errors are caught and
`false` returned. -/
def updateTransaction (ft : Fault) (transactionId : String) (newAmount : Int) (s : DB) :
    Except Err Bool × DB :=
  match (if ft.read then none else findRow s.transactions transactionId) with
  | none => (.ok false, s)
  | some txData =>
    let amountDifference := newAmount - txData.amount
    if ft.write then (.ok false, s)
    else
      let s1 := { s with transactions :=
        (updateRows s.transactions transactionId (fun t => { t with amount := newAmount })) }
      match optStrTruthy txData.orderId with
      | some oid =>
        match (if ft.read then none else findRow s1.orders oid) with
        | none => (.ok false, s1)
        | some _ =>
          let s2 := { s1 with orders :=
            (updateRows s1.orders oid
              (fun o => { o with remainingAmount := o.remainingAmount + (- amountDifference) })) }
          updateTransactionPost ft transactionId s2
      | none => updateTransactionPost ft transactionId s1

/-- `deleteTransaction(transactionId)`: a write batch returns the deleted
amount to the referenced order via `increment(amount)` and deletes the
ledger row; the batch commits all queued operations and reports the first
error afterwards; then the customer is recalculated. -/
def deleteTransaction (ft : Fault) (transactionId : String) (s : DB) :
    Except Err Bool × DB :=
  match (if ft.read then none else findRow s.transactions transactionId) with
  | none => (.ok false, s)
  | some txData =>
    let amountToReturn := txData.amount
    let r1 : Bool × DB :=
      match optStrTruthy txData.orderId with
      | some oid =>
        if ft.read then (true, s)
        else
          match findRow s.orders oid with
          | none => (true, s)
          | some _ =>
            if ft.write then (true, s)
            else (false, { s with orders :=
              (updateRows s.orders oid
                (fun o => { o with remainingAmount := o.remainingAmount + amountToReturn })) })
      | none => (false, s)
    let r2 : Bool × DB :=
      if ft.write then (true, r1.2)
      else (false, { r1.2 with transactions := eraseRow r1.2.transactions transactionId })
    if r1.1 || r2.1 then (.ok false, r2.2)
    else if txData.customerId ≠ "" ∧ txData.customerId.startsWith "TEMP-" = false then
      match recalculateUserStats ft txData.customerId r2.2 with
      | (Except.error _, s3) => (.ok false, s3)
      | (Except.ok _, s3) => (.ok true, s3)
    else (.ok true, r2.2)

/-- `setCustomerWeightDetails(orderId, weight, companyPricePerKiloUSD,
customerPricePerKilo)`: negative weight is rejected before any store call;
otherwise the delta between the new and the previously recorded customer
weight cost is applied to both `sellingPriceLYD` and `remainingAmount`, the
weight fields are stored, a ledger row describing the change is written when
the delta is nonzero, and the user is recalculated.  (`now` stands for
`new Date().toISOString()`; the human-readable description is abbreviated.) -/
def setCustomerWeightDetails (ft : Fault) (tidNew now : String) (orderId : String)
    (weight companyPricePerKiloUSD customerPricePerKilo : Int) (s : DB) :
    Except Err Bool × DB :=
  if weight < 0 then (.ok false, s)
  else
    match (if ft.read then none else findRow s.orders orderId) with
    | none => (.ok false, s)
    | some orderData =>
      let currentSellingPrice := orderData.sellingPriceLYD
      let currentRemaining := orderData.remainingAmount
      let oldCustomerWeightCost := orderData.customerWeightCost
      let newCustomerTotalCostLYD := weight * customerPricePerKilo
      let newCompanyTotalCostUSD := weight * companyPricePerKiloUSD
      let costDifference := newCustomerTotalCostLYD - oldCustomerWeightCost
      if ft.write then (.ok false, s)
      else
        let s1 := { s with orders :=
          (updateRows s.orders orderId (fun o =>
            { o with sellingPriceLYD := currentSellingPrice + costDifference,
                     remainingAmount := currentRemaining + costDifference,
                     weightKG := weight,
                     companyPricePerKiloUSD := companyPricePerKiloUSD,
                     customerPricePerKilo := customerPricePerKilo,
                     customerWeightCost := newCustomerTotalCostLYD,
                     companyWeightCostUSD := newCompanyTotalCostUSD })) }
        let s2 :=
          if costDifference ≠ 0 then
            { s1 with transactions :=
              (upsertRow s1.transactions tidNew
                { orderId := some orderId, customerId := orderData.userId,
                  customerName := orderData.customerName, date := now,
                  type_ := TxType.order, status := "completed",
                  amount := costDifference, description := "تعديل وزن الزبون" }) }
          else s1
        match (if ft.read then none else findRow s2.orders orderId) with
        | some o =>
          if o.userId ≠ "" then
            match recalculateUserStats ft o.userId s2 with
            | (Except.error _, s3) => (.ok false, s3)
            | (Except.ok _, s3) => (.ok true, s3)
          else (.ok true, s2)
        | none => (.ok true, s2)

/-- `addCustomerShippingCost(orderId, costInUSD)`: negative cost is rejected
before any store call; otherwise the USD delta against the stored
`customerWeightCostUSD`, converted at the order's snapshotted exchange rate
(falling back to the settings), is added to `sellingPriceLYD` and — through
the increment sentinel — to `remainingAmount`, and the user recalculated. -/
def addCustomerShippingCost (ft : Fault) (orderId : String) (costInUSD : Int) (s : DB) :
    Except Err Bool × DB :=
  if costInUSD < 0 then (.ok false, s)
  else
    match (if ft.read then none else findRow s.orders orderId) with
    | none => (.ok false, s)
    | some orderData =>
      let currentCustomerWeightCostUSD := orderData.customerWeightCostUSD
      let currentSellingPrice := orderData.sellingPriceLYD
      let ratePair : Int × DB :=
        if orderData.exchangeRate ≠ 0 then (orderData.exchangeRate, s)
        else
          let p := getAppSettings ft s
          (p.1.exchangeRate, p.2)
      let exchangeRate := ratePair.1
      let sA := ratePair.2
      let costDifferenceUSD := costInUSD - currentCustomerWeightCostUSD
      let costDifferenceLYD := costDifferenceUSD * exchangeRate
      let newSellingPrice := currentSellingPrice + costDifferenceLYD
      -- the payload mixes plain values with an increment sentinel, so the
      -- adapter takes the fetch-modify-write path (erroring when absent)
      match (if ft.read then none else findRow sA.orders orderId) with
      | none => (.ok false, sA)
      | some _ =>
        if ft.write then (.ok false, sA)
        else
          let s1 := { sA with orders :=
            (updateRows sA.orders orderId (fun o =>
              { o with sellingPriceLYD := newSellingPrice,
                       remainingAmount := o.remainingAmount + costDifferenceLYD,
                       customerWeightCostUSD := costInUSD })) }
          match (if ft.read then none else findRow s1.orders orderId) with
          | some o =>
            if o.userId ≠ "" then
              match recalculateUserStats ft o.userId s1 with
              | (Except.error _, s2) => (.ok false, s2)
              | (Except.ok _, s2) => (.ok true, s2)
            else (.ok true, s1)
          | none => (.ok true, s1)

/-- The representative argument of the assignment actions (`rep.id`,
`rep.name` are all the action reads). -/
structure RepInfo where
  id : String
  name : String := ""
deriving DecidableEq, Repr

/-- `assignRepresentativeToOrder(orderId, rep)`: one write batch queues a
decrement of the old representative's `assignedOrders` (when one is set), the
order's representative fields and forced `out_for_delivery` status, and an
increment of the new representative's count; the batch runs all queued
operations and reports the first error afterwards. -/
def assignRepresentativeToOrder (ft : Fault) (orderId : String) (rep : RepInfo) (s : DB) :
    Except Err Bool × DB :=
  match (if ft.read then none else findRow s.orders orderId) with
  | none => (.ok false, s)
  | some orderData =>
    let r1 : Bool × DB :=
      match optStrTruthy orderData.representativeId with
      | some oldRep =>
        if ft.read then (true, s)
        else
          match findRow s.representatives oldRep with
          | none => (true, s)
          | some _ =>
            if ft.write then (true, s)
            else (false, { s with representatives :=
              (updateRows s.representatives oldRep
                (fun r => { r with assignedOrders := r.assignedOrders - 1 })) })
      | none => (false, s)
    let r2 : Bool × DB :=
      if ft.write then (true, r1.2)
      else (false, { r1.2 with orders :=
        (updateRows r1.2.orders orderId (fun o =>
          { o with representativeId := some rep.id, representativeName := some rep.name,
                   status := OrderStatus.out_for_delivery })) })
    let r3 : Bool × DB :=
      if ft.read then (true, r2.2)
      else
        match findRow r2.2.representatives rep.id with
        | none => (true, r2.2)
        | some _ =>
          if ft.write then (true, r2.2)
          else (false, { r2.2 with representatives :=
            (updateRows r2.2.representatives rep.id
              (fun r => { r with assignedOrders := r.assignedOrders + 1 })) })
    if r1.1 || r2.1 || r3.1 then (.ok false, r3.2) else (.ok true, r3.2)

/-- `unassignRepresentativeFromOrder(orderId)`: when a representative is
set, one batch decrements their count and clears the order's representative
fields, forcing status `ready`. -/
def unassignRepresentativeFromOrder (ft : Fault) (orderId : String) (s : DB) :
    Except Err Bool × DB :=
  match (if ft.read then none else findRow s.orders orderId) with
  | none => (.ok false, s)
  | some orderData =>
    match optStrTruthy orderData.representativeId with
    | none => (.ok true, s)
    | some currentRepId =>
      let r1 : Bool × DB :=
        if ft.read then (true, s)
        else
          match findRow s.representatives currentRepId with
          | none => (true, s)
          | some _ =>
            if ft.write then (true, s)
            else (false, { s with representatives :=
              (updateRows s.representatives currentRepId
                (fun r => { r with assignedOrders := r.assignedOrders - 1 })) })
      let r2 : Bool × DB :=
        if ft.write then (true, r1.2)
        else (false, { r1.2 with orders :=
          (updateRows r1.2.orders orderId (fun o =>
            { o with representativeId := none, representativeName := none,
                     status := OrderStatus.ready })) })
      if r1.1 || r2.1 then (.ok false, r2.2) else (.ok true, r2.2)

/-- The per-order plain updates `bulkAssignRepresentative` queues. -/
def bulkOrderUpdates (ft : Fault) (rep : RepInfo) : List String → DB → Bool × DB
  | [], s => (false, s)
  | oid :: rest, s =>
    let r1 : Bool × DB :=
      if ft.write then (true, s)
      else (false, { s with orders :=
        (updateRows s.orders oid (fun o =>
          { o with representativeId := some rep.id, representativeName := some rep.name,
                   status := OrderStatus.out_for_delivery })) })
    let r2 := bulkOrderUpdates ft rep rest r1.2
    (r1.1 || r2.1, r2.2)

/-- `bulkAssignRepresentative(orderIds, rep)`: one batch sets the
representative fields of every listed order and increments the
representative's `assignedOrders` by the length of the list — previous
assignments of the listed orders are not decremented. -/
def bulkAssignRepresentative (ft : Fault) (orderIds : List String) (rep : RepInfo) (s : DB) :
    Except Err Bool × DB :=
  if orderIds.length = 0 then (.ok true, s)
  else
    let r1 := bulkOrderUpdates ft rep orderIds s
    let r2 : Bool × DB :=
      if ft.read then (true, r1.2)
      else
        match findRow r1.2.representatives rep.id with
        | none => (true, r1.2)
        | some _ =>
          if ft.write then (true, r1.2)
          else (false, { r1.2 with representatives :=
            (updateRows r1.2.representatives rep.id
              (fun r => { r with assignedOrders := r.assignedOrders + (orderIds.length : Int) })) })
    if r1.1 || r2.1 then (.ok false, r2.2) else (.ok true, r2.2)

/-- The batched deletions of the ledger rows referencing a deleted order. -/
def deleteTxRows (ft : Fault) : List String → DB → Bool × DB
  | [], s => (false, s)
  | tid :: rest, s =>
    let r1 : Bool × DB :=
      if ft.write then (true, s)
      else (false, { s with transactions := eraseRow s.transactions tid })
    let r2 := deleteTxRows ft rest r1.2
    (r1.1 || r2.1, r2.2)

/-- `deleteOrder(orderId)`: reverse the representative assignment count,
delete every transaction referencing the order and the order row itself in
one batch, then recalculate the owning user. -/
def deleteOrder (ft : Fault) (orderId : String) (s : DB) : Except Err Bool × DB :=
  match (if ft.read then none else findRow s.orders orderId) with
  | none => (.ok false, s)
  | some orderData =>
    let userId := orderData.userId
    let r1 : Bool × DB :=
      match optStrTruthy orderData.representativeId with
      | some rid =>
        if ft.read then (true, s)
        else
          match findRow s.representatives rid with
          | none => (true, s)
          | some _ =>
            if ft.write then (true, s)
            else (false, { s with representatives :=
              (updateRows s.representatives rid
                (fun r => { r with assignedOrders := r.assignedOrders - 1 })) })
      | none => (false, s)
    let txIds :=
      if ft.read then []
      else (r1.2.transactions.filter (fun p => decide (p.2.orderId = some orderId))).map Prod.fst
    let r2 := deleteTxRows ft txIds r1.2
    let r3 : Bool × DB :=
      if ft.write then (true, r2.2)
      else (false, { r2.2 with orders := eraseRow r2.2.orders orderId })
    if r1.1 || r2.1 || r3.1 then (.ok false, r3.2)
    else if userId ≠ "" then
      match recalculateUserStats ft userId r3.2 with
      | (Except.error _, s4) => (.ok false, s4)
      | (Except.ok _, s4) => (.ok true, s4)
    else (.ok true, r3.2)

/-- `updateUser(userId, data)` (partial update modelled as a row function). -/
def updateUser (ft : Fault) (userId : String) (f : UserRow → UserRow) (s : DB) :
    Except Err Bool × DB :=
  if ft.write then (.ok false, s)
  else (.ok true, { s with users := updateRows s.users userId f })

/-- `getUsers()` (the adapter converts a failing select into an empty
snapshot). -/
def getUsers (ft : Fault) (s : DB) : Except Err (List (String × UserRow)) × DB :=
  (.ok (if ft.read then [] else s.users), s)

/-- `getCreditors()`: no try/catch in the source, but the adapter itself
swallows select errors into an empty snapshot, so nothing can throw. -/
def getCreditors (ft : Fault) (s : DB) : Except Err (List (String × CreditorRow)) × DB :=
  (.ok (if ft.read then [] else s.creditors), s)

/-- `updateCreditor(creditorId, data)`: no try/catch in the source — a store
error from the update propagates to the caller. -/
def updateCreditor (ft : Fault) (creditorId : String) (f : CreditorRow → CreditorRow) (s : DB) :
    Except Err Bool × DB :=
  if ft.write then (.error .storeErr, s)
  else (.ok true, { s with creditors := updateRows s.creditors creditorId f })

/-!
Part 4: claim-side definitions and run lemmas.

`claimUserDebt` / `claimUserOrderCount` follow the wording of the debt
invariant (sum over the user's non-cancelled orders plus the unconverted,
non-cancelled, directly assigned temp orders); the bridging lemmas relate
them to what `recalculateUserStats` computes from its two queries.
-/

/-- The debt the claim describes: remaining amounts of the user's orders in
the active set (every status except cancelled) plus remaining amounts of the
user's directly assigned temp orders that are not cancelled and have
`parentInvoiceId = null`. -/
def claimUserDebt (s : DB) (uid : String) : Int :=
  isum s.orders (fun _ o =>
    if o.userId = uid ∧ o.status ≠ OrderStatus.cancelled then o.remainingAmount else 0) +
  isum s.tempOrders (fun _ t =>
    if t.assignedUserId = some uid ∧ t.parentInvoiceId = none ∧
        t.status ≠ OrderStatus.cancelled then t.remainingAmount else 0)

/-- The order count the claim describes: the number of the user's active
(non-cancelled) orders. -/
def claimUserOrderCount (s : DB) (uid : String) : Int :=
  isum s.orders (fun _ o =>
    if o.userId = uid ∧ o.status ≠ OrderStatus.cancelled then 1 else 0)

/-- The row function `recalculateUserStats` writes through the plain
update. -/
def recalcFun (s : DB) (uid : String) : UserRow → UserRow := fun u =>
  { u with
    debt := sumRemaining (activeOrdersOf noFault s uid) + tempSum (directTempsOf noFault s uid),
    orderCount := ((activeOrdersOf noFault s uid).length : Int) }

/-- A small concrete state: one user with stale aggregates, active /
cancelled / foreign orders, one unconverted and one converted temp order. -/
def c1DB : DB :=
  { users := [("u1", { name := "n", username := "user1", phone := "07", password := "pw",
                       debt := 999, orderCount := 9, orderCounter := 3 })],
    orders := [("o1", { userId := "u1", status := OrderStatus.pending, remainingAmount := 40 }),
               ("o2", { userId := "u1", status := OrderStatus.cancelled, remainingAmount := 7 }),
               ("o3", { userId := "zz", status := OrderStatus.paid, remainingAmount := 5 })],
    tempOrders := [("t1", { assignedUserId := some "u1", parentInvoiceId := none,
                            status := OrderStatus.pending, remainingAmount := 10 }),
                   ("t2", { assignedUserId := some "u1", parentInvoiceId := some "o9",
                            status := OrderStatus.pending, remainingAmount := 100 })] }

/-- The store behind `getTempOrders`: a cancelled and a pending temp order. -/
def c6Store : GStore :=
  { tables := [("tempOrders_v4",
      [("t1", [("status", JVal.str "cancelled")]),
       ("t2", [("status", JVal.str "pending")])])] }

/-- The condition `where("status", "!=", "cancelled")` that `getTempOrders`
issues. -/
def c6Cond : GCond := { field := "status", op := "!=", value := JVal.str "cancelled" }

/-- A pseudo-transaction that writes one document, then fails on an operator
update of a missing document, then would write a third document. -/
def c7Ops : List GTxOp :=
  [GTxOp.set "c" "a" [("x", JVal.num 1)],
   GTxOp.update "c" "b" [("y", UVal.increment 1)],
   GTxOp.set "c" "c" [("z", JVal.num 3)]]

def c7Start : GStore := { tables := [] }

/-- A user document with numeric field `f = 5`. -/
def c8Store : GStore :=
  { tables := [("users_v4", [("u", [("f", JVal.num 5), ("id", JVal.str "u")])])] }

/-!
Part 6: the error-policy claim.  `okRes` states that an action's result is a
returned value (possibly a sentinel) rather than a propagated exception.
-/

def okRes {α : Type} : Except Err α → Bool
  | .ok _ => true
  | .error _ => false

def c5DB : DB := { creditors := [("c1", { name := "acme", totalDebt := 0 })] }

def c4DB : DB := { users := [("u1", { username := "user1", orderCounter := 0 })] }

def c4Ids : GenIds := { orderId := "o1", orderTxId := "t1", payTxId := "t2", trackingId := "TRK" }

def c4Input : OrderInput :=
  { userId := "u1", customerName := "c", sellingPriceLYD := 1000, downPaymentLYD := 200 }

/-!
Part 8: the remaining-amount conservation claim (C2).

`paymentSumL` sums the amounts of payment-type ledger rows referencing an
order; `orderInvariant` is the corrected per-order equation
`sellingPriceLYD - paymentSum = remainingAmount` (the claimed equation
subtracts `downPaymentLYD` once more, which double counts the down payment —
the down payment itself is recorded as a payment-type transaction).
-/

def paymentSumL (l : List (String × TxRow)) (oid : String) : Int :=
  isum l (fun _ t => if t.type_ = TxType.payment ∧ t.orderId = some oid then t.amount else 0)

def paymentSum (s : DB) (oid : String) : Int := paymentSumL s.transactions oid

def orderInvariant (s : DB) (oid : String) : Prop :=
  ∀ o, findRow s.orders oid = some o →
    o.sellingPriceLYD - paymentSum s oid = o.remainingAmount

/-- One mutation covered by the conservation claim. -/
inductive PayOp
  | create (ids : GenIds) (od : OrderInput)
  | addPay (tidNew : String) (txd : TxRow)
  | updPay (transactionId : String) (newAmount : Int)
  | delPay (transactionId : String)
  | weight (tidNew now orderId : String) (w cpU cpK : Int)
  | shipping (orderId : String) (costUSD : Int)

def applyPayOp : PayOp → DB → DB
  | .create ids od, s => (addOrder noFault ids od s).2
  | .addPay tid txd, s => (addTransaction noFault tid txd s).2
  | .updPay tid n, s => (updateTransaction noFault tid n s).2
  | .delPay tid, s => (deleteTransaction noFault tid s).2
  | .weight tid now oid w a b, s => (setCustomerWeightDetails noFault tid now oid w a b s).2
  | .shipping oid c, s => (addCustomerShippingCost noFault oid c s).2

/-- Side conditions under which an operation is a well-formed mutation of
the order `oid`: the referenced rows exist, generated identifiers are fresh,
ids are genuine keys, the down payment is non-negative, and an added payment
does not exceed the order's current remaining amount (`addTransaction`
clamps the remaining amount at zero on overpayment, which breaks the
equation). -/
def payOpOK (oid : String) : PayOp → DB → Prop
  | .create ids od, s =>
      keysNodup s.orders ∧ keysNodup s.transactions ∧
      findRow s.orders ids.orderId = none ∧
      findRow s.transactions ids.orderTxId = none ∧
      findRow s.transactions ids.payTxId = none ∧
      ids.orderTxId ≠ ids.payTxId ∧
      0 ≤ od.downPaymentLYD ∧
      paymentSum s ids.orderId = 0
  | .addPay tid txd, s =>
      keysNodup s.orders ∧ keysNodup s.transactions ∧
      txd.type_ = TxType.payment ∧ txd.orderId = some oid ∧ oid ≠ "" ∧
      findRow s.transactions tid = none ∧
      (∃ o, findRow s.orders oid = some o ∧ txd.amount ≤ o.remainingAmount)
  | .updPay tid n, s =>
      keysNodup s.orders ∧ keysNodup s.transactions ∧
      (∃ t, findRow s.transactions tid = some t ∧ t.type_ = TxType.payment ∧
        t.orderId = some oid ∧ oid ≠ "" ∧ (∃ o, findRow s.orders oid = some o))
  | .delPay tid, s =>
      keysNodup s.orders ∧ keysNodup s.transactions ∧
      (∃ t, findRow s.transactions tid = some t ∧ t.type_ = TxType.payment ∧
        t.orderId = some oid ∧ oid ≠ "" ∧ (∃ o, findRow s.orders oid = some o))
  | .weight tid now oid' w a b, s =>
      keysNodup s.orders ∧ keysNodup s.transactions ∧
      oid' = oid ∧ 0 ≤ w ∧ (∃ o, findRow s.orders oid = some o) ∧
      findRow s.transactions tid = none
  | .shipping oid' c, s =>
      keysNodup s.orders ∧ keysNodup s.transactions ∧
      oid' = oid ∧ 0 ≤ c ∧ (∃ o, findRow s.orders oid = some o)

def c2DB : DB :=
  { users := [("u1", { username := "user1" })],
    orders := [("o1", { userId := "u1", sellingPriceLYD := 1000, downPaymentLYD := 200,
                        remainingAmount := 800, status := OrderStatus.pending })],
    transactions :=
      [("t1", { orderId := some "o1", customerId := "u1", type_ := TxType.order, amount := 1000 }),
       ("t2", { orderId := some "o1", customerId := "u1", type_ := TxType.payment, amount := 200 })] }

def c2Op : PayOp := PayOp.addPay "t3"
  { orderId := some "o1", customerId := "u1", type_ := TxType.payment, amount := 300 }

/-!
Claim C3: representative `assignedOrders` bookkeeping under the four
assignment-changing actions.
-/

/-- The number of orders whose `representativeId` equals `some rid`. -/
def countRepL (l : List (String × OrderRow)) (rid : String) : Int :=
  isum l (fun _ o => if o.representativeId = some rid then 1 else 0)

/-- The order count the spec says `assignedOrders` should track. -/
def countRep (s : DB) (rid : String) : Int := countRepL s.orders rid

/-- The claimed consistency invariant, together with the structural facts it
needs: ids are keys, no order stores the falsy `""` representative id, and
every stored representative count matches the actual order count. -/
def repConsistent (s : DB) : Prop :=
  keysNodup s.orders ∧ keysNodup s.representatives ∧
  (∀ p ∈ s.orders, p.2.representativeId ≠ some "") ∧
  (∀ rid r, findRow s.representatives rid = some r → r.assignedOrders = countRep s rid)

/-- The four operations the claim quantifies over. -/
inductive RepOp
  | assign (oid : String) (rep : RepInfo)
  | unassign (oid : String)
  | bulkAssign (oids : List String) (rep : RepInfo)
  | delOrder (oid : String)

/-- Run one operation on the healthy store and keep the final state. -/
def applyRepOp : RepOp → DB → DB
  | RepOp.assign oid rep, s => (assignRepresentativeToOrder noFault oid rep s).2
  | RepOp.unassign oid, s => (unassignRepresentativeFromOrder noFault oid s).2
  | RepOp.bulkAssign oids rep, s => (bulkAssignRepresentative noFault oids rep s).2
  | RepOp.delOrder oid, s => (deleteOrder noFault oid s).2

/-- Side conditions under which an operation keeps the books: a truthy
representative id, and — for the bulk assignment only — distinct order ids
that all exist and carry no representative yet (the bulk path never
decrements a previous representative, so reassignment breaks the count). -/
def repOpOK : RepOp → DB → Prop
  | RepOp.assign _ rep, _ => rep.id ≠ ""
  | RepOp.unassign _, _ => True
  | RepOp.bulkAssign oids rep, s =>
      rep.id ≠ "" ∧ oids.Nodup ∧
      ∀ oid ∈ oids, ∃ o, findRow s.orders oid = some o ∧ o.representativeId = none
  | RepOp.delOrder _, _ => True

def applyRepSeq : List RepOp → DB → DB
  | [], s => s
  | op :: rest, s => applyRepSeq rest (applyRepOp op s)

def repSeqOK : List RepOp → DB → Prop
  | [], _ => True
  | op :: rest, s => repOpOK op s ∧ repSeqOK rest (applyRepOp op s)

/-- The `batch.update(repRef, { assignedOrders: increment(d) })` pattern: a
fetch-modify-write that throws (leaving the table unchanged) when the row is
missing. -/
def bumpRep (reps : List (String × RepRow)) (rid : String) (f : RepRow → RepRow) :
    List (String × RepRow) :=
  match findRow reps rid with
  | none => reps
  | some _ => updateRows reps rid f

/-- A consistent store: order `o1` is assigned to representative `r1`, whose
stored count is 1; representative `r2` has no orders and count 0. -/
def c3DB : DB :=
  { orders := [("o1", { userId := "", representativeId := some "r1" })],
    representatives := [("r1", { assignedOrders := 1 }), ("r2", { assignedOrders := 0 })] }

/-- Bulk-assign the already-assigned order `o1` to `r2`. -/
def c3Op : RepOp := RepOp.bulkAssign ["o1"] { id := "r2", name := "R2" }

def c3After : DB := applyRepSeq [c3Op] c3DB

theorem findRow_updateRows_self {α : Type} (l : List (String × α)) (k : String) (f : α → α) :
    findRow (updateRows l k f) k = (findRow l k).map f := by
  induction l with
  | nil => rfl
  | cons p t ih =>
    by_cases h : p.1 = k
    · simp [updateRows, findRow, h]
    · simp [updateRows, findRow, h, ih]

theorem findRow_updateRows_ne {α : Type} (l : List (String × α)) (k k' : String)
    (f : α → α) (h : k' ≠ k) :
    findRow (updateRows l k f) k' = findRow l k' := by
  have hkk : ¬ (k = k') := fun hk => h hk.symm
  induction l with
  | nil => rfl
  | cons p t ih =>
    by_cases hp : p.1 = k
    · simp [updateRows, findRow, hp, hkk, ih]
    · by_cases hq : p.1 = k'
      · simp [updateRows, findRow, hp, hq, hkk, h]
      · simp [updateRows, findRow, hp, hq, ih]

theorem updateRows_of_not_found {α : Type} (l : List (String × α)) (k : String)
    (f : α → α) (h : findRow l k = none) : updateRows l k f = l := by
  induction l with
  | nil => rfl
  | cons p t ih =>
    by_cases hp : p.1 = k
    · simp [findRow, hp] at h
    · simp [findRow, hp] at h
      simp [updateRows, hp, ih h]

theorem upsertRow_of_not_found {α : Type} (l : List (String × α)) (k : String)
    (v : α) (h : findRow l k = none) : upsertRow l k v = l ++ [(k, v)] := by
  simp [upsertRow, h]

theorem findRow_append_self {α : Type} (l : List (String × α)) (k : String) (v : α)
    (h : findRow l k = none) : findRow (l ++ [(k, v)]) k = some v := by
  induction l with
  | nil => simp [findRow]
  | cons p t ih =>
    by_cases hp : p.1 = k
    · simp [findRow, hp] at h
    · simp [findRow, hp] at h
      simp [findRow, hp, ih h]

theorem findRow_append_ne {α : Type} (l : List (String × α)) (k k' : String) (v : α)
    (h : k' ≠ k) : findRow (l ++ [(k, v)]) k' = findRow l k' := by
  have hkk : ¬ (k = k') := fun hk => h hk.symm
  induction l with
  | nil => simp [findRow, hkk]
  | cons p t ih =>
    by_cases hp : p.1 = k'
    · simp [findRow, hp]
    · simp [findRow, hp, ih]

theorem findRow_eraseRow_self {α : Type} (l : List (String × α)) (k : String) :
    findRow (eraseRow l k) k = none := by
  induction l with
  | nil => rfl
  | cons p t ih =>
    by_cases hp : p.1 = k
    · simp [eraseRow, hp, ih]
    · simp [eraseRow, findRow, hp, ih]

theorem findRow_eraseRow_ne {α : Type} (l : List (String × α)) (k k' : String)
    (h : k' ≠ k) : findRow (eraseRow l k) k' = findRow l k' := by
  have hkk : ¬ (k = k') := fun hk => h hk.symm
  induction l with
  | nil => rfl
  | cons p t ih =>
    by_cases hp : p.1 = k
    · simp [eraseRow, findRow, hp, hkk, ih]
    · by_cases hq : p.1 = k'
      · simp [eraseRow, findRow, hp, hq, h]
      · simp [eraseRow, findRow, hp, hq, ih]

theorem mem_of_mem_eraseRow {α : Type} (l : List (String × α)) (k : String)
    (q : String × α) (h : q ∈ eraseRow l k) : q ∈ l := by
  induction l with
  | nil => simp [eraseRow] at h
  | cons p t ih =>
    by_cases hp : p.1 = k
    · simp [eraseRow, hp] at h
      exact List.mem_cons_of_mem _ (ih h)
    · simp [eraseRow, hp] at h
      cases h with
      | inl h => simp [h]
      | inr h => exact List.mem_cons_of_mem _ (ih h)

theorem keysNodup_cons {α : Type} (p : String × α) (t : List (String × α)) :
    keysNodup (p :: t) ↔ p.1 ∉ t.map Prod.fst ∧ keysNodup t := by
  unfold keysNodup
  simp [List.nodup_cons]

theorem keys_updateRows {α : Type} (l : List (String × α)) (k : String) (f : α → α) :
    (updateRows l k f).map Prod.fst = l.map Prod.fst := by
  induction l with
  | nil => rfl
  | cons p t ih =>
    by_cases hp : p.1 = k
    · simp [updateRows, hp, ih]
    · simp [updateRows, hp, ih]

theorem keysNodup_updateRows {α : Type} (l : List (String × α)) (k : String) (f : α → α)
    (h : keysNodup l) : keysNodup (updateRows l k f) := by
  unfold keysNodup at *
  rw [keys_updateRows]
  exact h

theorem keysNodup_eraseRow {α : Type} (l : List (String × α)) (k : String)
    (h : keysNodup l) : keysNodup (eraseRow l k) := by
  induction l with
  | nil => exact h
  | cons p t ih =>
    rcases (keysNodup_cons p t).mp h with ⟨hnot, ht⟩
    by_cases hp : p.1 = k
    · rw [show eraseRow (p :: t) k = eraseRow t k from by simp [eraseRow, hp]]
      exact ih ht
    · rw [show eraseRow (p :: t) k = p :: eraseRow t k from by simp [eraseRow, hp]]
      refine (keysNodup_cons _ _).mpr ⟨?_, ih ht⟩
      intro hmem
      rcases List.mem_map.mp hmem with ⟨q, hq, hqk⟩
      exact hnot (List.mem_map.mpr ⟨q, mem_of_mem_eraseRow t k q hq, hqk⟩)

theorem not_mem_keys_of_findRow_none {α : Type} (l : List (String × α)) (k : String)
    (h : findRow l k = none) : k ∉ l.map Prod.fst := by
  induction l with
  | nil => simp
  | cons p t ih =>
    by_cases hp : p.1 = k
    · simp [findRow, hp] at h
    · simp [findRow, hp] at h
      simp only [List.map_cons, List.mem_cons]
      rintro (hk | hk)
      · exact hp hk.symm
      · exact (ih h) hk

theorem findRow_none_of_not_mem_keys {α : Type} (l : List (String × α)) (k : String)
    (h : k ∉ l.map Prod.fst) : findRow l k = none := by
  induction l with
  | nil => rfl
  | cons p t ih =>
    simp only [List.map_cons, List.mem_cons, not_or] at h
    have hp : p.1 ≠ k := fun hk => h.1 hk.symm
    simp [findRow, hp, ih h.2]

theorem keysNodup_append {α : Type} (l : List (String × α)) (k : String) (v : α)
    (h : keysNodup l) (hk : findRow l k = none) : keysNodup (l ++ [(k, v)]) := by
  unfold keysNodup at *
  rw [List.map_append]
  simp only [List.map_cons, List.map_nil]
  rw [List.nodup_append]
  refine ⟨h, List.nodup_singleton _, ?_⟩
  intro a ha hb
  simp at hb
  rw [hb] at ha
  exact not_mem_keys_of_findRow_none l k hk ha

theorem isum_append {α : Type} (l₁ l₂ : List (String × α)) (f : String → α → Int) :
    isum (l₁ ++ l₂) f = isum l₁ f + isum l₂ f := by
  induction l₁ with
  | nil => simp [isum]
  | cons p t ih => simp [isum, ih]; ring

theorem eraseRow_of_not_found {α : Type} (l : List (String × α)) (k : String)
    (h : findRow l k = none) : eraseRow l k = l := by
  induction l with
  | nil => rfl
  | cons p t ih =>
    by_cases hp : p.1 = k
    · simp [findRow, hp] at h
    · simp [findRow, hp] at h
      simp [eraseRow, hp, ih h]

theorem isum_updateRows {α : Type} (l : List (String × α)) (k : String) (v : α)
    (g : α → α) (f : String → α → Int) (hnd : keysNodup l) (h : findRow l k = some v) :
    isum (updateRows l k g) f = isum l f - f k v + f k (g v) := by
  induction l with
  | nil => simp [findRow] at h
  | cons p t ih =>
    rcases (keysNodup_cons p t).mp hnd with ⟨hnot, ht⟩
    by_cases hp : p.1 = k
    · simp [findRow, hp] at h
      subst h
      have htn : findRow t k = none := by
        apply findRow_none_of_not_mem_keys
        rw [← hp]
        exact hnot
      rw [show updateRows (p :: t) k g = (p.1, g p.2) :: updateRows t k g from by
        simp [updateRows, hp]]
      rw [updateRows_of_not_found t k g htn]
      simp [isum, hp]
      ring
    · simp [findRow, hp] at h
      rw [show updateRows (p :: t) k g = p :: updateRows t k g from by simp [updateRows, hp]]
      simp [isum, ih ht h]
      ring

theorem isum_eraseRow {α : Type} (l : List (String × α)) (k : String) (v : α)
    (f : String → α → Int) (hnd : keysNodup l) (h : findRow l k = some v) :
    isum (eraseRow l k) f = isum l f - f k v := by
  induction l with
  | nil => simp [findRow] at h
  | cons p t ih =>
    rcases (keysNodup_cons p t).mp hnd with ⟨hnot, ht⟩
    by_cases hp : p.1 = k
    · simp [findRow, hp] at h
      subst h
      have htn : findRow t k = none := by
        apply findRow_none_of_not_mem_keys
        rw [← hp]
        exact hnot
      rw [show eraseRow (p :: t) k = eraseRow t k from by simp [eraseRow, hp]]
      rw [eraseRow_of_not_found t k htn]
      simp [isum, hp]
    · simp [findRow, hp] at h
      rw [show eraseRow (p :: t) k = p :: eraseRow t k from by simp [eraseRow, hp]]
      simp [isum, ih ht h]
      ring

theorem updateRows_updateRows {α : Type} (l : List (String × α)) (k : String)
    (f g : α → α) : updateRows (updateRows l k f) k g = updateRows l k (fun v => g (f v)) := by
  induction l with
  | nil => rfl
  | cons p t ih =>
    by_cases hp : p.1 = k
    · simp [updateRows, hp, ih]
    · simp [updateRows, hp, ih]

theorem updateRows_congr {α : Type} (l : List (String × α)) (k : String)
    (f g : α → α) (h : ∀ v, f v = g v) : updateRows l k f = updateRows l k g := by
  induction l with
  | nil => rfl
  | cons p t ih =>
    by_cases hp : p.1 = k
    · simp [updateRows, hp, ih, h]
    · simp [updateRows, hp, ih]

theorem isum_congr {α : Type} (l : List (String × α)) (f g : String → α → Int)
    (h : ∀ k v, f k v = g k v) : isum l f = isum l g := by
  induction l with
  | nil => rfl
  | cons p t ih => simp [isum, ih, h]

theorem active_iff (st : OrderStatus) : st ∈ activeStatuses ↔ st ≠ OrderStatus.cancelled := by
  cases st <;> decide

theorem sumRemaining_filter (l : List (String × OrderRow)) (p : String × OrderRow → Bool) :
    sumRemaining (l.filter p) =
      isum l (fun k v => if p (k, v) then v.remainingAmount else 0) := by
  induction l with
  | nil => rfl
  | cons q t ih =>
    by_cases hq : p q
    · simp [List.filter_cons, hq, sumRemaining, isum, ih]
    · simp [List.filter_cons, hq, isum, ih]

theorem length_filter_int (l : List (String × OrderRow)) (p : String × OrderRow → Bool) :
    (((l.filter p).length : Int)) = isum l (fun k v => if p (k, v) then 1 else 0) := by
  induction l with
  | nil => rfl
  | cons q t ih =>
    by_cases hq : p q
    · simp [List.filter_cons, hq, isum, ← ih]
      ring
    · simp [List.filter_cons, hq, isum, ih]

theorem tempSum_filter (l : List (String × TempOrderRow)) (p : String × TempOrderRow → Bool) :
    tempSum (l.filter p) =
      isum l (fun k v =>
        if p (k, v) then
          (if v.status = OrderStatus.cancelled then 0 else v.remainingAmount)
        else 0) := by
  induction l with
  | nil => rfl
  | cons q t ih =>
    by_cases hq : p q
    · simp [List.filter_cons, hq, tempSum, isum, ih]
    · simp [List.filter_cons, hq, isum, ih]

theorem activeOrdersOf_noFault (s : DB) (uid : String) :
    activeOrdersOf noFault s uid =
      s.orders.filter (fun p => decide (p.2.userId = uid ∧ p.2.status ∈ activeStatuses)) := rfl

theorem directTempsOf_noFault (s : DB) (uid : String) :
    directTempsOf noFault s uid =
      s.tempOrders.filter
        (fun p => decide (p.2.assignedUserId = some uid ∧ p.2.parentInvoiceId = none)) := rfl

theorem claimUserDebt_eq (s : DB) (uid : String) :
    sumRemaining (activeOrdersOf noFault s uid) + tempSum (directTempsOf noFault s uid) =
      claimUserDebt s uid := by
  unfold claimUserDebt
  rw [activeOrdersOf_noFault, directTempsOf_noFault, sumRemaining_filter, tempSum_filter]
  congr 1
  · apply isum_congr
    intro k v
    by_cases h1 : v.userId = uid ∧ v.status ∈ activeStatuses
    · rw [if_pos (by simpa using h1),
        if_pos (by exact ⟨h1.1, (active_iff v.status).mp h1.2⟩)]
    · rw [if_neg (by simpa using h1),
        if_neg (by
          intro hc
          exact h1 ⟨hc.1, (active_iff v.status).mpr hc.2⟩)]
  · apply isum_congr
    intro k v
    by_cases h1 : v.assignedUserId = some uid ∧ v.parentInvoiceId = none
    · rw [if_pos (by simpa using h1)]
      by_cases h2 : v.status = OrderStatus.cancelled
      · rw [if_pos h2, if_neg (by intro hc; exact hc.2.2 h2)]
      · rw [if_neg h2, if_pos ⟨h1.1, h1.2, h2⟩]
    · rw [if_neg (by simpa using h1),
        if_neg (by intro hc; exact h1 ⟨hc.1, hc.2.1⟩)]

theorem claimUserOrderCount_eq (s : DB) (uid : String) :
    (((activeOrdersOf noFault s uid).length : Int)) = claimUserOrderCount s uid := by
  unfold claimUserOrderCount
  rw [activeOrdersOf_noFault, length_filter_int]
  apply isum_congr
  intro k v
  by_cases h1 : v.userId = uid ∧ v.status ∈ activeStatuses
  · rw [if_pos (by simpa using h1),
      if_pos (by exact ⟨h1.1, (active_iff v.status).mp h1.2⟩)]
  · rw [if_neg (by simpa using h1),
      if_neg (by
        intro hc
        exact h1 ⟨hc.1, (active_iff v.status).mpr hc.2⟩)]

theorem recalc_noFault (uid : String) (s : DB) :
    recalculateUserStats noFault uid s =
      (.ok (), { s with users := updateRows s.users uid (recalcFun s uid) }) := rfl

theorem recalc_preserves (ft : Fault) (uid : String) (s : DB) :
    ((recalculateUserStats ft uid s).2).orders = s.orders ∧
    ((recalculateUserStats ft uid s).2).tempOrders = s.tempOrders ∧
    ((recalculateUserStats ft uid s).2).transactions = s.transactions ∧
    ((recalculateUserStats ft uid s).2).representatives = s.representatives ∧
    ((recalculateUserStats ft uid s).2).creditors = s.creditors ∧
    ((recalculateUserStats ft uid s).2).externalDebts = s.externalDebts ∧
    ((recalculateUserStats ft uid s).2).settings = s.settings := by
  unfold recalculateUserStats
  split <;> simp

/-- C1: after `recalculateUserStats(U)` the stored `debt` equals the sum of
`remainingAmount` over U's non-cancelled orders plus the sum over U's
directly assigned, unconverted (`parentInvoiceId = null`), non-cancelled
temp orders, and the stored `orderCount` equals the number of those active
orders; recalculation is idempotent — running it twice in a row leaves
exactly the state one run produces. -/
theorem C1_recalculateUserStats_spec :
    (∀ (s : DB) (uid : String) (u' : UserRow),
        findRow ((recalculateUserStats noFault uid s).2).users uid = some u' →
        u'.debt = claimUserDebt s uid ∧ u'.orderCount = claimUserOrderCount s uid) ∧
    (∀ (s : DB) (uid : String),
        recalculateUserStats noFault uid ((recalculateUserStats noFault uid s).2) =
          recalculateUserStats noFault uid s) := by
  constructor
  · intro s uid u' h
    rw [recalc_noFault] at h
    simp only [findRow_updateRows_self] at h
    cases hu : findRow s.users uid with
    | none => rw [hu] at h; simp at h
    | some u =>
      rw [hu] at h
      simp only [Option.map_some'] at h
      injection h with h
      constructor
      · rw [← h]
        exact claimUserDebt_eq s uid
      · rw [← h]
        exact claimUserOrderCount_eq s uid
  · intro s uid
    simp only [recalc_noFault]
    have husers :
        updateRows (updateRows s.users uid (recalcFun s uid)) uid
          (recalcFun { s with users := updateRows s.users uid (recalcFun s uid) } uid) =
        updateRows s.users uid (recalcFun s uid) := by
      rw [updateRows_updateRows]
      apply updateRows_congr
      intro v
      rfl
    rw [husers]

/-- Witness for C1 at `c1DB`: the recalculated row stores debt 40 + 10 = 50
and order count 1. -/
theorem C1_witness :
    ({ name := "n", username := "user1", phone := "07", password := "pw",
       debt := 50, orderCount := 1, orderCounter := 3 } : UserRow).debt =
        claimUserDebt c1DB "u1" ∧
    ({ name := "n", username := "user1", phone := "07", password := "pw",
       debt := 50, orderCount := 1, orderCounter := 3 } : UserRow).orderCount =
        claimUserOrderCount c1DB "u1" :=
  C1_recalculateUserStats_spec.1 c1DB "u1" _ (by rfl)

/-- C9: a negative weight makes `setCustomerWeightDetails` return `false`
with the store untouched, before any store call; likewise a negative cost
for `addCustomerShippingCost`. -/
theorem C9_negative_inputs_rejected :
    (∀ (ft : Fault) (tidNew now orderId : String) (w a b : Int) (s : DB),
        w < 0 → setCustomerWeightDetails ft tidNew now orderId w a b s = (.ok false, s)) ∧
    (∀ (ft : Fault) (orderId : String) (c : Int) (s : DB),
        c < 0 → addCustomerShippingCost ft orderId c s = (.ok false, s)) := by
  constructor
  · intro ft tidNew now orderId w a b s hw
    unfold setCustomerWeightDetails
    rw [if_pos hw]
  · intro ft orderId c s hc
    unfold addCustomerShippingCost
    rw [if_pos hc]

theorem C9_witness :
    setCustomerWeightDetails noFault "t9" "d9" "o9" (-1) 0 0 {} = (.ok false, {}) ∧
    addCustomerShippingCost noFault "o9" (-2) {} = (.ok false, {}) :=
  ⟨C9_negative_inputs_rejected.1 noFault "t9" "d9" "o9" (-1) 0 0 {} (by decide),
   C9_negative_inputs_rejected.2 noFault "o9" (-2) {} (by decide)⟩

/-- C10: `getUserById` is not a pure read — for an existing user it runs
`recalculateUserStats` before fetching, so the call itself rewrites the
stored `debt` and `orderCount` of the user row (to the recalculated values),
while every other field of the row is left unchanged. -/
theorem C10_getUserById_effect :
    ∀ (s : DB) (uid : String) (u : UserRow),
      findRow s.users uid = some u →
      (getUserById noFault uid s).2 = (recalculateUserStats noFault uid s).2 ∧
      (∃ u', findRow ((getUserById noFault uid s).2).users uid = some u' ∧
        u'.debt = claimUserDebt s uid ∧
        u'.orderCount = claimUserOrderCount s uid ∧
        u'.name = u.name ∧ u'.username = u.username ∧ u'.phone = u.phone ∧
        u'.password = u.password ∧ u'.orderCounter = u.orderCounter) := by
  intro s uid u hu
  have hfound : findRow (updateRows s.users uid (recalcFun s uid)) uid =
      some (recalcFun s uid u) := by
    rw [findRow_updateRows_self, hu]
    rfl
  have hrun : getUserById noFault uid s =
      (.ok (some (uid, recalcFun s uid u)),
       { s with users := updateRows s.users uid (recalcFun s uid) }) := by
    unfold getUserById
    rw [recalc_noFault]
    simp only [show (if noFault.read then none else
      findRow ({ s with users := updateRows s.users uid (recalcFun s uid) } : DB).users uid) =
        findRow (updateRows s.users uid (recalcFun s uid)) uid from rfl]
    rw [hfound]
  constructor
  · rw [hrun, recalc_noFault]
  · refine ⟨recalcFun s uid u, ?_, ?_, ?_, rfl, rfl, rfl, rfl, rfl⟩
    · rw [hrun]
      exact hfound
    · exact claimUserDebt_eq s uid
    · exact claimUserOrderCount_eq s uid

/-- Witness for C10 at `c1DB`. -/
theorem C10_witness :
    (getUserById noFault "u1" c1DB).2 = (recalculateUserStats noFault "u1" c1DB).2 ∧
    (∃ u', findRow ((getUserById noFault "u1" c1DB).2).users "u1" = some u' ∧
      u'.debt = claimUserDebt c1DB "u1" ∧
      u'.orderCount = claimUserOrderCount c1DB "u1" ∧
      u'.name = "n" ∧ u'.username = "user1" ∧ u'.phone = "07" ∧
      u'.password = "pw" ∧ u'.orderCounter = 3) :=
  C10_getUserById_effect c1DB "u1"
    { name := "n", username := "user1", phone := "07", password := "pw",
      debt := 999, orderCount := 9, orderCounter := 3 } (by rfl)

/-!
Part 5: claims about the access shim (query operator handling, the
pseudo-transaction's partial-failure behavior, and the increment operator).
-/

theorem GStore.rows_setRows_self (st : GStore) (col : String)
    (rows : List (String × GDoc)) : (st.setRows col rows).rows col = rows := by
  unfold GStore.setRows GStore.rows
  cases hf : findRow st.tables col with
  | none =>
    rw [upsertRow_of_not_found _ _ _ hf, findRow_append_self _ _ _ hf]
    rfl
  | some v =>
    rw [show upsertRow st.tables col rows = updateRows st.tables col (fun _ => rows) from by
        simp [upsertRow, hf],
      findRow_updateRows_self, hf]
    rfl

theorem objGet_objSet_self (d : GDoc) (k : String) (v : JVal) :
    objGet (objSet d k v) k = some v := by
  unfold objGet objSet
  cases hf : findRow d k with
  | none => rw [findRow_append_self _ _ _ hf]
  | some w =>
    rw [findRow_updateRows_self, hf]
    rfl

theorem condHolds_unsupported (c : GCond) (d : GDoc) (h : supportedOp c = false) :
    condHolds c d = true := by
  have h1 : ¬ (c.op = "==") := by
    intro he; unfold supportedOp at h; rw [he] at h; simp at h
  have h2 : ¬ (c.op = "in") := by
    intro he; unfold supportedOp at h; rw [he] at h; simp at h
  have h3 : ¬ (c.op = "array-contains") := by
    intro he; unfold supportedOp at h; rw [he] at h; simp at h
  unfold condHolds
  rw [if_neg h1, if_neg h2, if_neg h3]

theorem all_filter_supported (conds : List GCond) (d : GDoc) :
    (conds.filter supportedOp).all (fun c => condHolds c d) =
      conds.all (fun c => condHolds c d) := by
  induction conds with
  | nil => rfl
  | cons c t ih =>
    by_cases hc : supportedOp c = true
    · simp [List.filter_cons, hc, List.all_cons, ih]
    · have hcf : supportedOp c = false := by
        revert hc; cases supportedOp c <;> simp
      simp [List.filter_cons, hcf, List.all_cons, ih, condHolds_unsupported c d hcf]

/-- C6 (amended): a condition whose operator is not equals,
membership-in-set, or array-contains is silently dropped — the query returns
exactly what it would return with that condition absent (no error is
raised). -/
theorem C6_amended :
    ∀ (st : GStore) (col : String) (conds : List GCond),
      gQuery st col conds = gQuery st col (conds.filter supportedOp) := by
  intro st col conds
  unfold gQuery
  apply List.filter_congr
  intro p hp
  exact (all_filter_supported conds p.2).symm

/-- C6 (counterexample): the shim does not fail loudly on the unsupported
`!=` operator — the query silently ignores the condition, returning the same
rows as the unconditioned query, cancelled row included. -/
theorem C6_counterexample :
    gQuery c6Store "tempOrders_v4" [c6Cond] = gQuery c6Store "tempOrders_v4" [] ∧
    ("t1", [("status", JVal.str "cancelled")]) ∈ gQuery c6Store "tempOrders_v4" [c6Cond] := by
  constructor
  · rfl
  · show _ ∈ (gQuery c6Store "tempOrders_v4" [c6Cond])
    exact .head _

/-- C7: a mid-sequence failure of the pseudo-transaction leaves the state
partially updated: the run reports the error, the already-applied first
write remains in the store, and the remaining operation was never
executed. -/
theorem C7_partial_failure :
    (gRunTransaction c7Ops c7Start).1 = .error GErr.docNotFound ∧
    findRow ((gRunTransaction c7Ops c7Start).2.rows "c") "a" =
      some [("x", JVal.num 1), ("id", JVal.str "a")] ∧
    findRow ((gRunTransaction c7Ops c7Start).2.rows "c") "c" = none := by
  exact ⟨rfl, rfl, rfl⟩

/-- C8: on an existing document, an increment update of a numeric-or-absent
field (with an undotted name) stores current-or-zero plus the increment
amount. -/
theorem C8_increment_spec :
    ∀ (st : GStore) (col id f : String) (d : GDoc) (n cur : Int),
      findRow (st.rows col) id = some d →
      keyHasDot f = false →
      ((objGet d f = none ∧ cur = 0) ∨ objGet d f = some (JVal.num cur)) →
      ∃ st', gDocUpdate st col id [(f, UVal.increment n)] = .ok st' ∧
        (∃ d', findRow (st'.rows col) id = some d' ∧
          objGet d' f = some (JVal.num (cur + n))) := by
  intro st col id f d n cur hd hdot hcur
  have hval : jsNumberOr0 (objGet d f) = cur := by
    cases hcur with
    | inl h => rw [h.1, h.2]; rfl
    | inr h => rw [h]; rfl
  have happly : applyKeys d [(f, UVal.increment n)] =
      .ok (objSet d f (JVal.num (cur + n))) := by
    unfold applyKeys applyKey
    rw [hdot]
    simp only [Bool.false_eq_true, if_false, hval]
    rfl
  refine ⟨st.setRows col (updateRows (st.rows col) id
      (fun _ => objSet d f (JVal.num (cur + n)))), ?_, ?_⟩
  · unfold gDocUpdate
    rw [if_pos (by rfl), hd]
    show (match applyKeys d [(f, UVal.increment n)] with
      | Except.error e => Except.error e
      | Except.ok updated =>
        Except.ok (st.setRows col (updateRows (st.rows col) id (fun _ => updated)))) = _
    rw [happly]
  · refine ⟨objSet d f (JVal.num (cur + n)), ?_, objGet_objSet_self d f _⟩
    rw [GStore.rows_setRows_self, findRow_updateRows_self, hd]
    rfl

/-- Witness for C8: one increment on `f = 5` by 3; applying the theorem once
gives `f = 8`, and evaluating the second sequential application of the same
update gives `f = 11`. -/
theorem C8_witness :
    (∃ st', gDocUpdate c8Store "users_v4" "u" [("f", UVal.increment 3)] = .ok st' ∧
      (∃ d', findRow (st'.rows "users_v4") "u" = some d' ∧
        objGet d' "f" = some (JVal.num (5 + 3)))) ∧
    (∃ st1 st2, gDocUpdate c8Store "users_v4" "u" [("f", UVal.increment 3)] = .ok st1 ∧
      gDocUpdate st1 "users_v4" "u" [("f", UVal.increment 3)] = .ok st2 ∧
      (∃ d', findRow (st2.rows "users_v4") "u" = some d' ∧
        objGet d' "f" = some (JVal.num 11))) := by
  constructor
  · exact C8_increment_spec c8Store "users_v4" "u" "f" _ 3 5 (by rfl) (by rfl) (Or.inr (by rfl))
  · exact ⟨_, _, rfl, rfl, ⟨_, rfl, rfl⟩⟩

/-- C5 (counterexample): `updateCreditor` has no try/catch — when the store's
update reports an error, the error propagates to the caller instead of a
sentinel `false`. -/
theorem C5_counterexample :
    (updateCreditor { read := false, write := true } "c1"
      (fun c => { c with name := "x" }) c5DB).1 = Except.error Err.storeErr := rfl

/-- C5 (amended): the embedded exported actions outside the creditor /
external-debt group (and other than `recalculateUserStats`, which re-throws
by design) catch every internal error — for every fault pattern, state and
input they return a value, never a propagated exception. -/
theorem C5_amended :
    (∀ (ft : Fault) (uid : String) (s : DB),
        okRes (getUserById ft uid s).1 = true) ∧
    (∀ (ft : Fault) (ids : GenIds) (od : OrderInput) (s : DB),
        okRes (addOrder ft ids od s).1 = true) ∧
    (∀ (ft : Fault) (oid : String) (f : OrderRow → OrderRow) (s : DB),
        okRes (updateOrder ft oid f s).1 = true) ∧
    (∀ (ft : Fault) (tid : String) (txd : TxRow) (s : DB),
        okRes (addTransaction ft tid txd s).1 = true) ∧
    (∀ (ft : Fault) (tid : String) (n : Int) (s : DB),
        okRes (updateTransaction ft tid n s).1 = true) ∧
    (∀ (ft : Fault) (tid : String) (s : DB),
        okRes (deleteTransaction ft tid s).1 = true) ∧
    (∀ (ft : Fault) (t d oid : String) (w a b : Int) (s : DB),
        okRes (setCustomerWeightDetails ft t d oid w a b s).1 = true) ∧
    (∀ (ft : Fault) (oid : String) (c : Int) (s : DB),
        okRes (addCustomerShippingCost ft oid c s).1 = true) ∧
    (∀ (ft : Fault) (oid : String) (rep : RepInfo) (s : DB),
        okRes (assignRepresentativeToOrder ft oid rep s).1 = true) ∧
    (∀ (ft : Fault) (oid : String) (s : DB),
        okRes (unassignRepresentativeFromOrder ft oid s).1 = true) ∧
    (∀ (ft : Fault) (oids : List String) (rep : RepInfo) (s : DB),
        okRes (bulkAssignRepresentative ft oids rep s).1 = true) ∧
    (∀ (ft : Fault) (oid : String) (s : DB),
        okRes (deleteOrder ft oid s).1 = true) ∧
    (∀ (ft : Fault) (uid : String) (f : UserRow → UserRow) (s : DB),
        okRes (updateUser ft uid f s).1 = true) ∧
    (∀ (ft : Fault) (s : DB), okRes (getUsers ft s).1 = true) ∧
    (∀ (ft : Fault) (s : DB), okRes (getCreditors ft s).1 = true) := by
  refine ⟨?_, ?_, ?_, ?_, ?_, ?_, ?_, ?_, ?_, ?_, ?_, ?_, ?_, ?_, ?_⟩
  · intro ft uid s
    unfold getUserById
    repeat' (first | rfl | split | dsimp only)
  · intro ft ids od s
    unfold addOrder
    repeat' (first | rfl | split | dsimp only)
  · intro ft oid f s
    unfold updateOrder
    repeat' (first | rfl | split | dsimp only)
  · intro ft tid txd s
    unfold addTransaction addTransactionRest
    repeat' (first | rfl | split | dsimp only)
  · intro ft tid n s
    unfold updateTransaction updateTransactionPost
    repeat' (first | rfl | split | dsimp only)
  · intro ft tid s
    unfold deleteTransaction
    repeat' (first | rfl | split | dsimp only)
  · intro ft t d oid w a b s
    unfold setCustomerWeightDetails
    repeat' (first | rfl | split | dsimp only)
  · intro ft oid c s
    unfold addCustomerShippingCost
    repeat' (first | rfl | split | dsimp only)
  · intro ft oid rep s
    unfold assignRepresentativeToOrder
    repeat' (first | rfl | split | dsimp only)
  · intro ft oid s
    unfold unassignRepresentativeFromOrder
    repeat' (first | rfl | split | dsimp only)
  · intro ft oids rep s
    unfold bulkAssignRepresentative
    repeat' (first | rfl | split | dsimp only)
  · intro ft oid s
    unfold deleteOrder
    repeat' (first | rfl | split | dsimp only)
  · intro ft uid f s
    unfold updateUser
    repeat' (first | rfl | split | dsimp only)
  · intro ft s
    rfl
  · intro ft s
    rfl

/-!
Part 7: order creation (C4).
-/

theorem findRow_upsertRow_self {α : Type} (l : List (String × α)) (k : String) (v : α) :
    findRow (upsertRow l k v) k = some v := by
  unfold upsertRow
  cases hf : findRow l k with
  | none => exact findRow_append_self l k v hf
  | some w =>
    rw [findRow_updateRows_self, hf]
    rfl

theorem findRow_upsertRow_ne {α : Type} (l : List (String × α)) (k k' : String) (v : α)
    (h : k' ≠ k) : findRow (upsertRow l k v) k' = findRow l k' := by
  unfold upsertRow
  cases hf : findRow l k with
  | none => exact findRow_append_ne l k k' v h
  | some w => exact findRow_updateRows_ne l k k' _ h

theorem getAppSettings_preserves (ft : Fault) (s : DB) :
    ((getAppSettings ft s).2).users = s.users ∧
    ((getAppSettings ft s).2).orders = s.orders ∧
    ((getAppSettings ft s).2).tempOrders = s.tempOrders ∧
    ((getAppSettings ft s).2).transactions = s.transactions ∧
    ((getAppSettings ft s).2).representatives = s.representatives := by
  unfold getAppSettings
  repeat' split
  all_goals exact ⟨rfl, rfl, rfl, rfl, rfl⟩

/-- C4: when the owning user exists (and the drawn random identifiers are
fresh), `addOrder` creates the order with
`remainingAmount = sellingPriceLYD - downPaymentLYD`, records an
`order`-type transaction for the full selling price, records a
`payment`-type transaction for the down payment exactly when it is positive,
and increments the user's `orderCounter` by one. -/
theorem C4_addOrder_spec :
    ∀ (s : DB) (ids : GenIds) (od : OrderInput) (u : UserRow),
      findRow s.users od.userId = some u →
      findRow s.orders ids.orderId = none →
      findRow s.transactions ids.orderTxId = none →
      findRow s.transactions ids.payTxId = none →
      ids.orderTxId ≠ ids.payTxId →
      (∃ row, (addOrder noFault ids od s).1 = .ok (some (ids.orderId, row)) ∧
        findRow ((addOrder noFault ids od s).2).orders ids.orderId = some row ∧
        row.remainingAmount = od.sellingPriceLYD - od.downPaymentLYD) ∧
      (∃ t1, findRow ((addOrder noFault ids od s).2).transactions ids.orderTxId = some t1 ∧
        t1.type_ = TxType.order ∧ t1.amount = od.sellingPriceLYD) ∧
      ((od.downPaymentLYD > 0 →
        ∃ t2, findRow ((addOrder noFault ids od s).2).transactions ids.payTxId = some t2 ∧
          t2.type_ = TxType.payment ∧ t2.amount = od.downPaymentLYD) ∧
       (¬ od.downPaymentLYD > 0 →
        findRow ((addOrder noFault ids od s).2).transactions ids.payTxId = none)) ∧
      (∃ u', findRow ((addOrder noFault ids od s).2).users od.userId = some u' ∧
        u'.orderCounter = u.orderCounter + 1) := by
  intro s ids od u hu ho ht1 ht2 hne
  obtain ⟨hsu, hso, hst, hstx, hsr⟩ := getAppSettings_preserves noFault s
  have hne2 : ids.payTxId ≠ ids.orderTxId := fun h => hne h.symm
  by_cases hdp : od.downPaymentLYD > 0
  · unfold addOrder
    simp only [show noFault.read = false from rfl, show noFault.write = false from rfl,
      Bool.false_eq_true, if_false, hu, hsu, hso, hstx, if_pos hdp,
      findRow_upsertRow_self, findRow_updateRows_self, Option.map_some', recalc_noFault]
    refine ⟨?_, ?_, ⟨fun _ => ?_, fun h => absurd hdp h⟩, ?_⟩
    · exact ⟨_, rfl, rfl, rfl⟩
    · simp only [findRow_upsertRow_ne, hne, hne2, ne_eq, not_false_iff,
        findRow_upsertRow_self]
      exact ⟨_, rfl, rfl, rfl⟩
    · exact ⟨_, rfl, rfl, rfl⟩
    · exact ⟨_, rfl, rfl⟩
  · unfold addOrder
    simp only [show noFault.read = false from rfl, show noFault.write = false from rfl,
      Bool.false_eq_true, if_false, hu, hsu, hso, hstx, if_neg hdp,
      findRow_upsertRow_self, findRow_updateRows_self, Option.map_some', recalc_noFault]
    refine ⟨?_, ?_, ⟨fun h => absurd h hdp, fun _ => ?_⟩, ?_⟩
    · exact ⟨_, rfl, rfl, rfl⟩
    · exact ⟨_, rfl, rfl, rfl⟩
    · simp only [findRow_upsertRow_ne, hne2, ne_eq, not_false_iff, hstx, ht2]
    · exact ⟨_, rfl, rfl⟩

/-- Witness for C4: selling price 1000 and down payment 200 yield an order
with remaining amount 800, an order transaction of 1000, a payment
transaction of 200, and the counter moves from 0 to 1. -/
theorem C4_witness :
    (∃ row, (addOrder noFault c4Ids c4Input c4DB).1 = .ok (some ("o1", row)) ∧
      findRow ((addOrder noFault c4Ids c4Input c4DB).2).orders "o1" = some row ∧
      row.remainingAmount = 1000 - 200) ∧
    (∃ t1, findRow ((addOrder noFault c4Ids c4Input c4DB).2).transactions "t1" = some t1 ∧
      t1.type_ = TxType.order ∧ t1.amount = 1000) ∧
    (((200 : Int) > 0 →
      ∃ t2, findRow ((addOrder noFault c4Ids c4Input c4DB).2).transactions "t2" = some t2 ∧
        t2.type_ = TxType.payment ∧ t2.amount = 200) ∧
     (¬ (200 : Int) > 0 →
      findRow ((addOrder noFault c4Ids c4Input c4DB).2).transactions "t2" = none)) ∧
    (∃ u', findRow ((addOrder noFault c4Ids c4Input c4DB).2).users "u1" = some u' ∧
      u'.orderCounter = 0 + 1) :=
  C4_addOrder_spec c4DB c4Ids c4Input { username := "user1", orderCounter := 0 }
    (by rfl) (by rfl) (by rfl) (by rfl) (by decide)

/-- C2 (counterexample): directly after creating an order with selling price
1000 and down payment 200, the claimed equation
`sellingPriceLYD - downPaymentLYD - paymentSum = remainingAmount` computes
1000 - 200 - 200 = 600 while the stored remaining amount is 800: the claimed
equation subtracts the recorded down-payment transaction on top of the
`downPaymentLYD` field. -/
theorem C2_counterexample :
    ∃ row, findRow ((addOrder noFault c4Ids c4Input c4DB).2).orders "o1" = some row ∧
      row.sellingPriceLYD - row.downPaymentLYD - paymentSum (addOrder noFault c4Ids c4Input c4DB).2 "o1" = 600 ∧
      row.remainingAmount = 800 := by
  exact ⟨_, rfl, rfl, rfl⟩

theorem paymentSumL_append_fresh (l : List (String × TxRow)) (tid oid : String) (tx : TxRow)
    (h : findRow l tid = none) :
    paymentSumL (upsertRow l tid tx) oid =
      paymentSumL l oid +
        (if tx.type_ = TxType.payment ∧ tx.orderId = some oid then tx.amount else 0) := by
  rw [upsertRow_of_not_found _ _ _ h]
  unfold paymentSumL
  rw [isum_append]
  simp [isum]

theorem payPreserve_addPay (oid tid : String) (txd : TxRow) (s : DB)
    (hOK : payOpOK oid (PayOp.addPay tid txd) s) (hinv : orderInvariant s oid) :
    orderInvariant (applyPayOp (PayOp.addPay tid txd) s) oid := by
  obtain ⟨hndO, hndT, hty, hoid, hne, hfresh, o, ho, hamt⟩ := hOK
  have hclamp : ¬ (o.remainingAmount - txd.amount < 0) := by omega
  have hcl2 : (if o.remainingAmount - txd.amount < 0 then 0 else o.remainingAmount - txd.amount)
      = o.remainingAmount - txd.amount := if_neg hclamp
  have hrun := hinv o ho
  unfold applyPayOp addTransaction addTransactionRest
  simp only [hty, hoid, optStrTruthy, if_neg hne,
    show noFault.read = false from rfl, show noFault.write = false from rfl,
    Bool.false_eq_true, if_false, ite_true, ite_false, ho, hcl2, if_pos rfl]
  by_cases hc : (txd.customerId ≠ "" ∧ txd.customerId.startsWith "TEMP-" = false)
  · simp only [if_pos hc, recalc_noFault]
    intro o' ho'
    simp only [findRow_updateRows_self, ho, Option.map_some'] at ho'
    injection ho' with ho'
    subst ho'
    unfold paymentSum at hrun ⊢
    try dsimp only
    rw [paymentSumL_append_fresh s.transactions tid oid txd hfresh, hty, hoid,
      if_pos ⟨rfl, rfl⟩]
    try dsimp only
    omega
  · simp only [if_neg hc]
    intro o' ho'
    simp only [findRow_updateRows_self, ho, Option.map_some'] at ho'
    injection ho' with ho'
    subst ho'
    unfold paymentSum at hrun ⊢
    try dsimp only
    rw [paymentSumL_append_fresh s.transactions tid oid txd hfresh, hty, hoid,
      if_pos ⟨rfl, rfl⟩]
    try dsimp only
    omega

theorem payPreserve_updPay (oid tid : String) (n : Int) (s : DB)
    (hOK : payOpOK oid (PayOp.updPay tid n) s) (hinv : orderInvariant s oid) :
    orderInvariant (applyPayOp (PayOp.updPay tid n) s) oid := by
  obtain ⟨hndO, hndT, t, ht, hty, hoid, hne, o, ho⟩ := hOK
  have hrun := hinv o ho
  unfold applyPayOp updateTransaction updateTransactionPost
  simp only [ht, hty, hoid, optStrTruthy, if_neg hne, ho,
    show noFault.read = false from rfl, show noFault.write = false from rfl,
    Bool.false_eq_true, if_false, ite_true, ite_false,
    findRow_updateRows_self, Option.map_some']
  by_cases hc : (t.customerId ≠ "" ∧ t.customerId.startsWith "TEMP-" = false)
  · simp only [if_pos hc, recalc_noFault]
    intro o' ho'
    simp only [findRow_updateRows_self, ho, Option.map_some'] at ho'
    injection ho' with ho'
    subst ho'
    unfold paymentSum paymentSumL at hrun ⊢
    try dsimp only
    rw [isum_updateRows s.transactions tid t _ _ hndT ht]
    try dsimp only
    rw [if_pos ⟨hty, hoid⟩, if_pos ⟨hty, hoid⟩]
    try dsimp only
    omega
  · simp only [if_neg hc]
    intro o' ho'
    simp only [findRow_updateRows_self, ho, Option.map_some'] at ho'
    injection ho' with ho'
    subst ho'
    unfold paymentSum paymentSumL at hrun ⊢
    try dsimp only
    rw [isum_updateRows s.transactions tid t _ _ hndT ht]
    try dsimp only
    rw [if_pos ⟨hty, hoid⟩, if_pos ⟨hty, hoid⟩]
    try dsimp only
    omega

theorem payPreserve_delPay (oid tid : String) (s : DB)
    (hOK : payOpOK oid (PayOp.delPay tid) s) (hinv : orderInvariant s oid) :
    orderInvariant (applyPayOp (PayOp.delPay tid) s) oid := by
  obtain ⟨hndO, hndT, t, ht, hty, hoid, hne, o, ho⟩ := hOK
  have hrun := hinv o ho
  unfold applyPayOp deleteTransaction
  simp only [ht, hty, hoid, optStrTruthy, if_neg hne, ho,
    show noFault.read = false from rfl, show noFault.write = false from rfl,
    Bool.false_eq_true, if_false, ite_true, ite_false, Bool.or_self,
    findRow_updateRows_self, Option.map_some']
  by_cases hc : (t.customerId ≠ "" ∧ t.customerId.startsWith "TEMP-" = false)
  · simp only [if_pos hc, recalc_noFault]
    intro o' ho'
    simp only [findRow_updateRows_self, ho, Option.map_some'] at ho'
    injection ho' with ho'
    subst ho'
    unfold paymentSum paymentSumL at hrun ⊢
    try dsimp only
    rw [isum_eraseRow s.transactions tid t _ hndT ht]
    try dsimp only
    rw [if_pos ⟨hty, hoid⟩]
    try dsimp only
    omega
  · simp only [if_neg hc]
    intro o' ho'
    simp only [findRow_updateRows_self, ho, Option.map_some'] at ho'
    injection ho' with ho'
    subst ho'
    unfold paymentSum paymentSumL at hrun ⊢
    try dsimp only
    rw [isum_eraseRow s.transactions tid t _ hndT ht]
    try dsimp only
    rw [if_pos ⟨hty, hoid⟩]
    try dsimp only
    omega

theorem payPreserve_weight (oid tid now : String) (w a b : Int) (s : DB)
    (hOK : payOpOK oid (PayOp.weight tid now oid w a b) s) (hinv : orderInvariant s oid) :
    orderInvariant (applyPayOp (PayOp.weight tid now oid w a b) s) oid := by
  obtain ⟨hndO, hndT, -, hw, ⟨o, ho⟩, hfresh⟩ := hOK
  have hrun := hinv o ho
  have hno : ¬ (TxType.order = TxType.payment ∧ (some oid : Option String) = some oid) := by
    simp
  show orderInvariant (setCustomerWeightDetails noFault tid now oid w a b s).2 oid
  unfold setCustomerWeightDetails
  rw [if_neg (by omega : ¬ (w < 0))]
  simp only [ho,
    show noFault.read = false from rfl, show noFault.write = false from rfl,
    Bool.false_eq_true, if_false, ite_true, ite_false]
  by_cases hd : (w * b - o.customerWeightCost ≠ 0)
  · simp only [if_pos hd, findRow_updateRows_self, ho, Option.map_some']
    by_cases huid : (o.userId ≠ "")
    · rw [if_pos huid]
      simp only [recalc_noFault]
      intro o' ho'
      simp only [findRow_updateRows_self, ho, Option.map_some'] at ho'
      injection ho' with ho'
      subst ho'
      unfold paymentSum at hrun ⊢
      try dsimp only
      rw [paymentSumL_append_fresh s.transactions tid oid _ hfresh]
      try dsimp only
      rw [if_neg hno]
      try dsimp only
      first
      | omega
      | linarith [hrun]
    · rw [if_neg huid]
      intro o' ho'
      simp only [findRow_updateRows_self, ho, Option.map_some'] at ho'
      injection ho' with ho'
      subst ho'
      unfold paymentSum at hrun ⊢
      try dsimp only
      rw [paymentSumL_append_fresh s.transactions tid oid _ hfresh]
      try dsimp only
      rw [if_neg hno]
      try dsimp only
      first
      | omega
      | linarith [hrun]
  · simp only [if_neg hd, findRow_updateRows_self, ho, Option.map_some']
    by_cases huid : (o.userId ≠ "")
    · rw [if_pos huid]
      simp only [recalc_noFault]
      intro o' ho'
      simp only [findRow_updateRows_self, ho, Option.map_some'] at ho'
      injection ho' with ho'
      subst ho'
      unfold paymentSum at hrun ⊢
      try dsimp only
      first
      | omega
      | linarith [hrun]
    · rw [if_neg huid]
      intro o' ho'
      simp only [findRow_updateRows_self, ho, Option.map_some'] at ho'
      injection ho' with ho'
      subst ho'
      unfold paymentSum at hrun ⊢
      try dsimp only
      first
      | omega
      | linarith [hrun]

theorem payPreserve_shipping (oid : String) (c : Int) (s : DB)
    (hOK : payOpOK oid (PayOp.shipping oid c) s) (hinv : orderInvariant s oid) :
    orderInvariant (applyPayOp (PayOp.shipping oid c) s) oid := by
  obtain ⟨hndO, hndT, -, hc, o, ho⟩ := hOK
  have hrun := hinv o ho
  obtain ⟨hsu, hso, hst, hstx, hsr⟩ := getAppSettings_preserves noFault s
  show orderInvariant (addCustomerShippingCost noFault oid c s).2 oid
  unfold addCustomerShippingCost
  rw [if_neg (by omega : ¬ (c < 0))]
  simp only [ho,
    show noFault.read = false from rfl, show noFault.write = false from rfl,
    Bool.false_eq_true, if_false, ite_true, ite_false]
  by_cases her : (o.exchangeRate ≠ 0)
  · simp only [if_pos her, ho, findRow_updateRows_self, Option.map_some']
    by_cases huid : (o.userId ≠ "")
    · rw [if_pos huid]
      simp only [recalc_noFault]
      intro o' ho'
      simp only [hso, findRow_updateRows_self, ho, Option.map_some'] at ho'
      injection ho' with ho'
      subst ho'
      unfold paymentSum at hrun ⊢
      try dsimp only
      try simp only [hstx]
      first
      | omega
      | linarith [hrun]
    · rw [if_neg huid]
      intro o' ho'
      simp only [hso, findRow_updateRows_self, ho, Option.map_some'] at ho'
      injection ho' with ho'
      subst ho'
      unfold paymentSum at hrun ⊢
      try dsimp only
      try simp only [hstx]
      first
      | omega
      | linarith [hrun]
  · simp only [if_neg her, hso, hstx, ho, findRow_updateRows_self, Option.map_some']
    by_cases huid : (o.userId ≠ "")
    · rw [if_pos huid]
      simp only [recalc_noFault]
      intro o' ho'
      simp only [hso, findRow_updateRows_self, ho, Option.map_some'] at ho'
      injection ho' with ho'
      subst ho'
      unfold paymentSum at hrun ⊢
      try dsimp only
      try simp only [hstx]
      first
      | omega
      | linarith [hrun]
    · rw [if_neg huid]
      intro o' ho'
      simp only [hso, findRow_updateRows_self, ho, Option.map_some'] at ho'
      injection ho' with ho'
      subst ho'
      unfold paymentSum at hrun ⊢
      try dsimp only
      try simp only [hstx]
      first
      | omega
      | linarith [hrun]

theorem payPreserve_create (oid : String) (ids : GenIds) (od : OrderInput) (s : DB)
    (hOK : payOpOK oid (PayOp.create ids od) s) (hinv : orderInvariant s oid) :
    orderInvariant (applyPayOp (PayOp.create ids od) s) oid := by
  obtain ⟨hndO, hndT, ho, ht1, ht2, hne, hdp0, hP0⟩ := hOK
  have hne2 : ids.payTxId ≠ ids.orderTxId := fun h => hne h.symm
  obtain ⟨hsu, hso, hst, hstx, hsr⟩ := getAppSettings_preserves noFault s
  have hno1 : ¬ (TxType.order = TxType.payment ∧ (some ids.orderId : Option String) = some oid) := by
    simp
  show orderInvariant (addOrder noFault ids od s).2 oid
  unfold addOrder
  cases hu : findRow s.users od.userId with
  | none =>
    simp only [show noFault.read = false from rfl, Bool.false_eq_true, if_false,
      ite_true, ite_false, hu]
    exact hinv
  | some u =>
    by_cases hdp : od.downPaymentLYD > 0
    · simp only [show noFault.read = false from rfl, show noFault.write = false from rfl,
        Bool.false_eq_true, if_false, ite_true, ite_false, hu, hsu, hso, hstx, if_pos hdp,
        findRow_upsertRow_self, findRow_updateRows_self, Option.map_some', recalc_noFault]
      intro o' ho'
      by_cases hoid : oid = ids.orderId
      · subst hoid
        rw [findRow_upsertRow_self] at ho'
        injection ho' with ho'
        subst ho'
        unfold paymentSum at hP0 ⊢
        try dsimp only
        rw [paymentSumL_append_fresh _ ids.payTxId ids.orderId _
              (by rw [findRow_upsertRow_ne _ _ _ _ hne2]; exact ht2),
            paymentSumL_append_fresh _ ids.orderTxId ids.orderId _ ht1, hP0]
        try dsimp only
        rw [if_neg hno1, if_pos ⟨rfl, rfl⟩]
        try dsimp only
        omega
      · rw [findRow_upsertRow_ne _ _ _ _ hoid] at ho'
        have hbase := hinv o' ho'
        have hno2 : ¬ (TxType.payment = TxType.payment ∧
            (some ids.orderId : Option String) = some oid) := by
          intro h
          apply hoid
          injection h.2 with hh
          exact hh.symm
        unfold paymentSum at hbase ⊢
        try dsimp only
        rw [paymentSumL_append_fresh _ ids.payTxId oid _
              (by rw [findRow_upsertRow_ne _ _ _ _ hne2]; exact ht2),
            paymentSumL_append_fresh _ ids.orderTxId oid _ ht1]
        try dsimp only
        rw [if_neg hno1, if_neg hno2]
        omega
    · simp only [show noFault.read = false from rfl, show noFault.write = false from rfl,
        Bool.false_eq_true, if_false, ite_true, ite_false, hu, hsu, hso, hstx, if_neg hdp,
        findRow_upsertRow_self, findRow_updateRows_self, Option.map_some', recalc_noFault]
      intro o' ho'
      by_cases hoid : oid = ids.orderId
      · subst hoid
        rw [findRow_upsertRow_self] at ho'
        injection ho' with ho'
        subst ho'
        unfold paymentSum at hP0 ⊢
        try dsimp only
        rw [paymentSumL_append_fresh _ ids.orderTxId ids.orderId _ ht1, hP0]
        try dsimp only
        rw [if_neg hno1]
        try dsimp only
        omega
      · rw [findRow_upsertRow_ne _ _ _ _ hoid] at ho'
        have hbase := hinv o' ho'
        unfold paymentSum at hbase ⊢
        try dsimp only
        rw [paymentSumL_append_fresh _ ids.orderTxId oid _ ht1]
        try dsimp only
        rw [if_neg hno1]
        omega

/-- C2 (amended): for every order, the equation
`sellingPriceLYD - (sum of payment-type transaction amounts) = remainingAmount`
(the down payment not subtracted separately, since it is itself recorded as a
payment transaction) holds after order creation and is preserved by payment
transaction add / update / delete and by weight and shipping-cost
adjustments, provided the referenced rows exist, generated ids are fresh,
the down payment is non-negative, and no added payment exceeds the current
remaining amount (`addTransaction` clamps the remaining amount at zero on
overpayment). -/
theorem C2_amended :
    ∀ (op : PayOp) (oid : String) (s : DB),
      payOpOK oid op s → orderInvariant s oid →
      orderInvariant (applyPayOp op s) oid := by
  intro op oid s hOK hinv
  cases op with
  | create ids od => exact payPreserve_create oid ids od s hOK hinv
  | addPay tid txd => exact payPreserve_addPay oid tid txd s hOK hinv
  | updPay tid n => exact payPreserve_updPay oid tid n s hOK hinv
  | delPay tid => exact payPreserve_delPay oid tid s hOK hinv
  | weight tid now oid' w a b =>
    have hoid : oid' = oid := hOK.2.2.1
    subst hoid
    exact payPreserve_weight oid' tid now w a b s hOK hinv
  | shipping oid' c =>
    have hoid : oid' = oid := hOK.2.2.1
    subst hoid
    exact payPreserve_shipping oid' c s hOK hinv

/-- Witness for C2 (amended): recording a 300 payment against the 1000/200
order keeps the corrected equation (800 - 300 = 500 remaining, payments sum
to 500). -/
theorem C2_amended_witness : orderInvariant (applyPayOp c2Op c2DB) "o1" :=
  C2_amended c2Op "o1" c2DB
    ⟨by unfold keysNodup; decide, by unfold keysNodup; decide, rfl, rfl, by decide, rfl,
      ⟨_, rfl, by decide⟩⟩
    (by
      intro o h
      rw [show findRow c2DB.orders "o1" =
        some { userId := "u1", sellingPriceLYD := 1000, downPaymentLYD := 200,
               remainingAmount := 800, status := OrderStatus.pending } from rfl] at h
      injection h with h
      subst h
      decide)

theorem findRow_bumpRep_self (reps : List (String × RepRow)) (rid : String)
    (f : RepRow → RepRow) :
    findRow (bumpRep reps rid f) rid = (findRow reps rid).map f := by
  unfold bumpRep
  cases h : findRow reps rid with
  | none => simp [h]
  | some r => rw [findRow_updateRows_self, h]

theorem findRow_bumpRep_ne (reps : List (String × RepRow)) (rid k : String)
    (f : RepRow → RepRow) (h : k ≠ rid) :
    findRow (bumpRep reps rid f) k = findRow reps k := by
  unfold bumpRep
  cases hf : findRow reps rid with
  | none => rfl
  | some r => exact findRow_updateRows_ne reps rid k f h

theorem keysNodup_bumpRep (reps : List (String × RepRow)) (rid : String)
    (f : RepRow → RepRow) (h : keysNodup reps) : keysNodup (bumpRep reps rid f) := by
  unfold bumpRep
  cases hf : findRow reps rid with
  | none => exact h
  | some r => exact keysNodup_updateRows _ _ _ h

theorem countRepL_updateRows (l : List (String × OrderRow)) (k : String)
    (g : OrderRow → OrderRow) (v : OrderRow) (hnd : keysNodup l)
    (h : findRow l k = some v) (rid : String) :
    countRepL (updateRows l k g) rid =
      countRepL l rid - (if v.representativeId = some rid then 1 else 0)
        + (if (g v).representativeId = some rid then 1 else 0) := by
  unfold countRepL
  exact isum_updateRows l k v g _ hnd h

theorem countRepL_eraseRow (l : List (String × OrderRow)) (k : String)
    (v : OrderRow) (hnd : keysNodup l) (h : findRow l k = some v) (rid : String) :
    countRepL (eraseRow l k) rid =
      countRepL l rid - (if v.representativeId = some rid then 1 else 0) := by
  unfold countRepL
  exact isum_eraseRow l k v _ hnd h

theorem mem_of_findRow {α : Type} (l : List (String × α)) (k : String) (v : α)
    (h : findRow l k = some v) : (k, v) ∈ l := by
  induction l with
  | nil => simp [findRow] at h
  | cons p t ih =>
    by_cases hp : p.1 = k
    · simp only [findRow, hp, if_pos] at h
      injection h with h
      subst h
      rw [← hp]
      exact List.mem_cons_self _ _
    · simp only [findRow, hp, ite_false, if_false] at h
      exact List.mem_cons_of_mem _ (ih h)

theorem mem_updateRows {α : Type} (l : List (String × α)) (k : String) (f : α → α)
    (p : String × α) (hp : p ∈ updateRows l k f) :
    p ∈ l ∨ ∃ v, (k, v) ∈ l ∧ p = (k, f v) := by
  induction l with
  | nil => simp [updateRows] at hp
  | cons q t ih =>
    by_cases hq : q.1 = k
    · rw [show updateRows (q :: t) k f = (q.1, f q.2) :: updateRows t k f from by
        simp [updateRows, hq]] at hp
      rcases List.mem_cons.mp hp with h | h
      · right
        refine ⟨q.2, ?_, by rw [h, hq]⟩
        rw [← hq]
        exact List.mem_cons_self _ _
      · rcases ih h with h' | ⟨v, hv, hpv⟩
        · exact Or.inl (List.mem_cons_of_mem _ h')
        · exact Or.inr ⟨v, List.mem_cons_of_mem _ hv, hpv⟩
    · rw [show updateRows (q :: t) k f = q :: updateRows t k f from by
        simp [updateRows, hq]] at hp
      rcases List.mem_cons.mp hp with h | h
      · exact Or.inl (by rw [h]; exact List.mem_cons_self _ _)
      · rcases ih h with h' | ⟨v, hv, hpv⟩
        · exact Or.inl (List.mem_cons_of_mem _ h')
        · exact Or.inr ⟨v, List.mem_cons_of_mem _ hv, hpv⟩

theorem noEmptyRep_updateRows (l : List (String × OrderRow)) (k : String)
    (f : OrderRow → OrderRow)
    (h3 : ∀ p ∈ l, p.2.representativeId ≠ some "")
    (hf : ∀ v, (f v).representativeId ≠ some "") :
    ∀ p ∈ updateRows l k f, p.2.representativeId ≠ some "" := by
  intro p hp
  rcases mem_updateRows l k f p hp with h | ⟨v, hv, hpv⟩
  · exact h3 p h
  · rw [hpv]
    exact hf v

theorem optStrTruthy_eq_some (o : Option String) (c : String)
    (h : optStrTruthy o = some c) : o = some c ∧ c ≠ "" := by
  cases o with
  | none => simp [optStrTruthy] at h
  | some x =>
    by_cases hx : x = ""
    · simp [optStrTruthy, hx] at h
    · simp only [optStrTruthy, hx, ite_false, if_false] at h
      injection h with h
      subst h
      exact ⟨rfl, hx⟩

/-- Package a decidable membership check of the invariant into the
`findRow`-phrased form. -/
theorem repConsistent_of_forall_mem (s : DB)
    (h1 : keysNodup s.orders) (h2 : keysNodup s.representatives)
    (h3 : ∀ p ∈ s.orders, p.2.representativeId ≠ some "")
    (h4 : ∀ p ∈ s.representatives, p.2.assignedOrders = countRep s p.1) :
    repConsistent s :=
  ⟨h1, h2, h3, fun rid r hr => h4 (rid, r) (mem_of_findRow _ _ _ hr)⟩

theorem assign_state (oid : String) (rep : RepInfo) (s : DB) (od : OrderRow)
    (ho : findRow s.orders oid = some od) :
    ((assignRepresentativeToOrder noFault oid rep s).2).orders =
      updateRows s.orders oid (fun o =>
        { o with representativeId := some rep.id, representativeName := some rep.name,
                 status := OrderStatus.out_for_delivery }) ∧
    ((assignRepresentativeToOrder noFault oid rep s).2).representatives =
      bumpRep
        (match optStrTruthy od.representativeId with
         | some oldRep => bumpRep s.representatives oldRep
             (fun r => { r with assignedOrders := r.assignedOrders - 1 })
         | none => s.representatives)
        rep.id (fun r => { r with assignedOrders := r.assignedOrders + 1 }) := by
  unfold assignRepresentativeToOrder bumpRep
  simp only [show noFault.read = false from rfl, show noFault.write = false from rfl,
    Bool.false_eq_true, if_false, ite_false, ite_true, ho]
  cases htr : optStrTruthy od.representativeId with
  | none =>
    dsimp only
    cases hf : findRow s.representatives rep.id with
    | none => exact ⟨rfl, rfl⟩
    | some r0 => exact ⟨rfl, rfl⟩
  | some cur =>
    dsimp only
    cases hf : findRow s.representatives cur with
    | none =>
      dsimp only
      cases hf2 : findRow s.representatives rep.id with
      | none => exact ⟨rfl, rfl⟩
      | some r0 => exact ⟨rfl, rfl⟩
    | some rc =>
      dsimp only
      cases hf2 : findRow (updateRows s.representatives cur
          (fun r => { r with assignedOrders := r.assignedOrders - 1 })) rep.id with
      | none => exact ⟨rfl, rfl⟩
      | some r0 => exact ⟨rfl, rfl⟩

theorem assign_state_notfound (oid : String) (rep : RepInfo) (s : DB)
    (ho : findRow s.orders oid = none) :
    (assignRepresentativeToOrder noFault oid rep s).2 = s := by
  unfold assignRepresentativeToOrder
  simp only [show noFault.read = false from rfl, Bool.false_eq_true, if_false,
    ite_false, ho]

theorem unassign_state (oid : String) (s : DB) (od : OrderRow) (cur : String)
    (ho : findRow s.orders oid = some od)
    (ht : optStrTruthy od.representativeId = some cur) :
    ((unassignRepresentativeFromOrder noFault oid s).2).orders =
      updateRows s.orders oid (fun o =>
        { o with representativeId := none, representativeName := none,
                 status := OrderStatus.ready }) ∧
    ((unassignRepresentativeFromOrder noFault oid s).2).representatives =
      bumpRep s.representatives cur
        (fun r => { r with assignedOrders := r.assignedOrders - 1 }) := by
  unfold unassignRepresentativeFromOrder bumpRep
  simp only [show noFault.read = false from rfl, show noFault.write = false from rfl,
    Bool.false_eq_true, if_false, ite_false, ite_true, ho, ht]
  cases hf : findRow s.representatives cur with
  | none => exact ⟨rfl, rfl⟩
  | some r0 => exact ⟨rfl, rfl⟩

theorem unassign_state_notfound (oid : String) (s : DB)
    (ho : findRow s.orders oid = none) :
    (unassignRepresentativeFromOrder noFault oid s).2 = s := by
  unfold unassignRepresentativeFromOrder
  simp only [show noFault.read = false from rfl, Bool.false_eq_true, if_false,
    ite_false, ho]

theorem unassign_state_norep (oid : String) (s : DB) (od : OrderRow)
    (ho : findRow s.orders oid = some od)
    (ht : optStrTruthy od.representativeId = none) :
    (unassignRepresentativeFromOrder noFault oid s).2 = s := by
  unfold unassignRepresentativeFromOrder
  simp only [show noFault.read = false from rfl, Bool.false_eq_true, if_false,
    ite_false, ho, ht]

theorem deleteTxRows_preserves (tids : List String) (s : DB) :
    ((deleteTxRows noFault tids s).2).orders = s.orders ∧
    ((deleteTxRows noFault tids s).2).representatives = s.representatives := by
  induction tids generalizing s with
  | nil => exact ⟨rfl, rfl⟩
  | cons t rest ih =>
    exact ⟨(ih { s with transactions := eraseRow s.transactions t }).1,
      (ih { s with transactions := eraseRow s.transactions t }).2⟩

theorem delete_state (oid : String) (s : DB) (od : OrderRow)
    (ho : findRow s.orders oid = some od) :
    ((deleteOrder noFault oid s).2).orders = eraseRow s.orders oid ∧
    ((deleteOrder noFault oid s).2).representatives =
      (match optStrTruthy od.representativeId with
       | some rid => bumpRep s.representatives rid
           (fun r => { r with assignedOrders := r.assignedOrders - 1 })
       | none => s.representatives) := by
  unfold deleteOrder bumpRep
  simp only [show noFault.read = false from rfl, show noFault.write = false from rfl,
    Bool.false_eq_true, if_false, ite_false, ite_true, ho]
  rw [recalc_noFault]
  cases htr : optStrTruthy od.representativeId with
  | none =>
    dsimp only
    constructor <;>
      repeat' first
        | rfl
        | rw [(deleteTxRows_preserves _ _).1]
        | rw [(deleteTxRows_preserves _ _).2]
        | split
        | dsimp only
  | some cur =>
    dsimp only
    cases hf : findRow s.representatives cur with
    | none =>
      dsimp only
      constructor <;>
        repeat' first
          | rfl
          | rw [(deleteTxRows_preserves _ _).1]
          | rw [(deleteTxRows_preserves _ _).2]
          | split
          | dsimp only
    | some rc =>
      dsimp only
      constructor <;>
        repeat' first
          | rfl
          | rw [(deleteTxRows_preserves _ _).1]
          | rw [(deleteTxRows_preserves _ _).2]
          | split
          | dsimp only

theorem delete_state_notfound (oid : String) (s : DB)
    (ho : findRow s.orders oid = none) :
    (deleteOrder noFault oid s).2 = s := by
  unfold deleteOrder
  simp only [show noFault.read = false from rfl, Bool.false_eq_true, if_false,
    ite_false, ho]

theorem optStrTruthy_eq_none (o : Option String) (h : optStrTruthy o = none)
    (hne : o ≠ some "") : o = none := by
  cases o with
  | none => rfl
  | some x =>
    by_cases hx : x = ""
    · subst hx
      exact absurd rfl hne
    · simp [optStrTruthy, hx] at h

theorem bulkAssign_state (oids : List String) (rep : RepInfo) (s : DB)
    (hlen : ¬ oids.length = 0) :
    ((bulkAssignRepresentative noFault oids rep s).2).orders =
      ((bulkOrderUpdates noFault rep oids s).2).orders ∧
    ((bulkAssignRepresentative noFault oids rep s).2).representatives =
      bumpRep ((bulkOrderUpdates noFault rep oids s).2).representatives rep.id
        (fun r => { r with assignedOrders := r.assignedOrders + (oids.length : Int) }) := by
  unfold bulkAssignRepresentative bumpRep
  rw [if_neg hlen]
  simp only [show noFault.read = false from rfl, show noFault.write = false from rfl,
    Bool.false_eq_true, if_false, ite_false, ite_true]
  cases hf : findRow ((bulkOrderUpdates noFault rep oids s).2).representatives rep.id with
  | none => exact ⟨by split <;> rfl, by split <;> rfl⟩
  | some r0 => exact ⟨by split <;> rfl, by split <;> rfl⟩

/-- What one pass of plain per-order updates does when every listed id is a
distinct existing order with no representative: each listed order now points
at `rep`, the representative table is untouched, and for every id the order
count grows by the number of listed orders pointing at it (all of them for
`rep.id`, none otherwise). -/
theorem bulk_orders_spec (rep : RepInfo) (oids : List String) :
    ∀ s : DB, keysNodup s.orders →
    (∀ oid ∈ oids, ∃ o, findRow s.orders oid = some o ∧ o.representativeId = none) →
    oids.Nodup →
    keysNodup ((bulkOrderUpdates noFault rep oids s).2).orders ∧
    ((bulkOrderUpdates noFault rep oids s).2).representatives = s.representatives ∧
    (∀ p ∈ ((bulkOrderUpdates noFault rep oids s).2).orders,
        p.2.representativeId = some rep.id ∨ p ∈ s.orders) ∧
    (∀ rid, countRepL ((bulkOrderUpdates noFault rep oids s).2).orders rid =
        countRepL s.orders rid + (if rep.id = rid then (oids.length : Int) else 0)) := by
  induction oids with
  | nil =>
    intro s hnd _ _
    exact ⟨hnd, rfl, fun p hp => Or.inr hp, fun rid => by simp [bulkOrderUpdates]⟩
  | cons oid rest ih =>
    intro s hnd hok hnodup
    obtain ⟨hmem, hrest⟩ := List.nodup_cons.mp hnodup
    obtain ⟨o, ho, hon⟩ := hok oid (List.mem_cons_self _ _)
    have hstep : (bulkOrderUpdates noFault rep (oid :: rest) s).2 =
        (bulkOrderUpdates noFault rep rest
          { s with orders := updateRows s.orders oid (fun o =>
              { o with representativeId := some rep.id,
                       representativeName := some rep.name,
                       status := OrderStatus.out_for_delivery }) }).2 := rfl
    have hnd1 : keysNodup ({ s with orders := updateRows s.orders oid (fun o =>
        { o with representativeId := some rep.id,
                 representativeName := some rep.name,
                 status := OrderStatus.out_for_delivery }) } : DB).orders :=
      keysNodup_updateRows _ _ _ hnd
    have hok1 : ∀ oid' ∈ rest, ∃ o',
        findRow ({ s with orders := updateRows s.orders oid (fun o =>
          { o with representativeId := some rep.id,
                   representativeName := some rep.name,
                   status := OrderStatus.out_for_delivery }) } : DB).orders oid' = some o' ∧
        o'.representativeId = none := by
      intro oid' h'
      obtain ⟨o', ho', hon'⟩ := hok oid' (List.mem_cons_of_mem _ h')
      have hne : oid' ≠ oid := fun he => hmem (he ▸ h')
      refine ⟨o', ?_, hon'⟩
      show findRow (updateRows s.orders oid _) oid' = some o'
      rw [findRow_updateRows_ne _ _ _ _ hne]
      exact ho'
    obtain ⟨ih1, ih2, ih3, ih4⟩ := ih _ hnd1 hok1 hrest
    rw [hstep]
    refine ⟨ih1, by rw [ih2], ?_, ?_⟩
    · intro p hp
      rcases ih3 p hp with h | h
      · exact Or.inl h
      · rcases mem_updateRows s.orders oid _ p h with h' | ⟨v, hv, hpv⟩
        · exact Or.inr h'
        · exact Or.inl (by rw [hpv])
    · intro rid
      rw [ih4 rid]
      dsimp only
      rw [countRepL_updateRows s.orders oid _ o hnd ho rid, hon]
      dsimp only
      simp only [Option.some.injEq, reduceCtorEq, if_false, List.length_cons, sub_zero]
      by_cases h : rep.id = rid
      · rw [if_pos h, if_pos h, if_pos h]
        push_cast
        omega
      · rw [if_neg h, if_neg h, if_neg h]
        omega

theorem repStep_assign (oid : String) (rep : RepInfo) (s : DB)
    (hrep : rep.id ≠ "") (hc : repConsistent s) :
    repConsistent (applyRepOp (RepOp.assign oid rep) s) := by
  obtain ⟨h1, h2, h3, h4⟩ := hc
  show repConsistent (assignRepresentativeToOrder noFault oid rep s).2
  cases ho : findRow s.orders oid with
  | none =>
    rw [assign_state_notfound oid rep s ho]
    exact ⟨h1, h2, h3, h4⟩
  | some od =>
    obtain ⟨hO, hR⟩ := assign_state oid rep s od ho
    refine ⟨?_, ?_, ?_, ?_⟩
    · rw [hO]
      exact keysNodup_updateRows _ _ _ h1
    · rw [hR]
      apply keysNodup_bumpRep
      cases htr : optStrTruthy od.representativeId with
      | none => exact h2
      | some cur => exact keysNodup_bumpRep _ _ _ h2
    · rw [hO]
      apply noEmptyRep_updateRows _ _ _ h3
      intro v
      dsimp only
      simp only [ne_eq, Option.some.injEq]
      exact hrep
    · simp only [countRep, hO, hR]
      cases htr : optStrTruthy od.representativeId with
      | none =>
        have hodn : od.representativeId = none :=
          optStrTruthy_eq_none _ htr (h3 (oid, od) (mem_of_findRow _ _ _ ho))
        intro rid r hr
        dsimp only at hr
        rw [countRepL_updateRows s.orders oid _ od h1 ho rid, hodn]
        dsimp only
        simp only [Option.some.injEq, reduceCtorEq, if_false, sub_zero]
        by_cases hrd : rep.id = rid
        · rw [hrd] at hr
          rw [findRow_bumpRep_self, Option.map_eq_some'] at hr
          obtain ⟨r0, hfr, hr0⟩ := hr
          subst hr0
          have h40 := h4 rid r0 hfr
          simp only [countRep] at h40
          dsimp only
          rw [if_pos hrd]
          omega
        · rw [findRow_bumpRep_ne _ _ _ _ (fun h => hrd h.symm)] at hr
          have h40 := h4 rid r hr
          simp only [countRep] at h40
          rw [if_neg hrd]
          omega
      | some cur =>
        obtain ⟨hodc, hcur⟩ := optStrTruthy_eq_some _ _ htr
        intro rid r hr
        dsimp only at hr
        rw [countRepL_updateRows s.orders oid _ od h1 ho rid, hodc]
        dsimp only
        simp only [Option.some.injEq]
        by_cases hrd : rep.id = rid
        · rw [hrd] at hr
          rw [findRow_bumpRep_self, Option.map_eq_some'] at hr
          obtain ⟨r1x, hfr1, hr0⟩ := hr
          subst hr0
          by_cases hcd : cur = rid
          · rw [hcd] at hfr1
            rw [findRow_bumpRep_self, Option.map_eq_some'] at hfr1
            obtain ⟨r0, hfr, hr1⟩ := hfr1
            subst hr1
            have h40 := h4 rid r0 hfr
            simp only [countRep] at h40
            dsimp only
            rw [if_pos hcd, if_pos hrd]
            omega
          · rw [findRow_bumpRep_ne _ _ _ _ (fun h => hcd h.symm)] at hfr1
            have h40 := h4 rid r1x hfr1
            simp only [countRep] at h40
            dsimp only
            rw [if_neg hcd, if_pos hrd]
            omega
        · rw [findRow_bumpRep_ne _ _ _ _ (fun h => hrd h.symm)] at hr
          by_cases hcd : cur = rid
          · rw [hcd] at hr
            rw [findRow_bumpRep_self, Option.map_eq_some'] at hr
            obtain ⟨r0, hfr, hr0⟩ := hr
            subst hr0
            have h40 := h4 rid r0 hfr
            simp only [countRep] at h40
            dsimp only
            rw [if_pos hcd, if_neg hrd]
            omega
          · rw [findRow_bumpRep_ne _ _ _ _ (fun h => hcd h.symm)] at hr
            have h40 := h4 rid r hr
            simp only [countRep] at h40
            rw [if_neg hcd, if_neg hrd]
            omega

theorem repStep_unassign (oid : String) (s : DB) (hc : repConsistent s) :
    repConsistent (applyRepOp (RepOp.unassign oid) s) := by
  obtain ⟨h1, h2, h3, h4⟩ := hc
  show repConsistent (unassignRepresentativeFromOrder noFault oid s).2
  cases ho : findRow s.orders oid with
  | none =>
    rw [unassign_state_notfound oid s ho]
    exact ⟨h1, h2, h3, h4⟩
  | some od =>
    cases htr : optStrTruthy od.representativeId with
    | none =>
      rw [unassign_state_norep oid s od ho htr]
      exact ⟨h1, h2, h3, h4⟩
    | some cur =>
      obtain ⟨hodc, hcur⟩ := optStrTruthy_eq_some _ _ htr
      obtain ⟨hO, hR⟩ := unassign_state oid s od cur ho htr
      refine ⟨?_, ?_, ?_, ?_⟩
      · rw [hO]
        exact keysNodup_updateRows _ _ _ h1
      · rw [hR]
        exact keysNodup_bumpRep _ _ _ h2
      · rw [hO]
        apply noEmptyRep_updateRows _ _ _ h3
        intro v
        dsimp only
        simp
      · simp only [countRep, hO, hR]
        intro rid r hr
        rw [countRepL_updateRows s.orders oid _ od h1 ho rid, hodc]
        dsimp only
        simp only [Option.some.injEq, reduceCtorEq, if_false, add_zero]
        by_cases hcd : cur = rid
        · rw [hcd] at hr
          rw [findRow_bumpRep_self, Option.map_eq_some'] at hr
          obtain ⟨r0, hfr, hr0⟩ := hr
          subst hr0
          have h40 := h4 rid r0 hfr
          simp only [countRep] at h40
          dsimp only
          rw [if_pos hcd]
          omega
        · rw [findRow_bumpRep_ne _ _ _ _ (fun h => hcd h.symm)] at hr
          have h40 := h4 rid r hr
          simp only [countRep] at h40
          rw [if_neg hcd]
          omega

theorem repStep_delete (oid : String) (s : DB) (hc : repConsistent s) :
    repConsistent (applyRepOp (RepOp.delOrder oid) s) := by
  obtain ⟨h1, h2, h3, h4⟩ := hc
  show repConsistent (deleteOrder noFault oid s).2
  cases ho : findRow s.orders oid with
  | none =>
    rw [delete_state_notfound oid s ho]
    exact ⟨h1, h2, h3, h4⟩
  | some od =>
    obtain ⟨hO, hR⟩ := delete_state oid s od ho
    refine ⟨?_, ?_, ?_, ?_⟩
    · rw [hO]
      exact keysNodup_eraseRow _ _ h1
    · rw [hR]
      cases htr : optStrTruthy od.representativeId with
      | none => exact h2
      | some cur => exact keysNodup_bumpRep _ _ _ h2
    · rw [hO]
      intro p hp
      exact h3 p (mem_of_mem_eraseRow _ _ _ hp)
    · simp only [countRep, hO, hR]
      cases htr : optStrTruthy od.representativeId with
      | none =>
        have hodn : od.representativeId = none :=
          optStrTruthy_eq_none _ htr (h3 (oid, od) (mem_of_findRow _ _ _ ho))
        intro rid r hr
        dsimp only at hr
        rw [countRepL_eraseRow s.orders oid od h1 ho rid, hodn]
        simp only [reduceCtorEq, if_false, sub_zero]
        have h40 := h4 rid r hr
        simp only [countRep] at h40
        exact h40
      | some cur =>
        obtain ⟨hodc, hcur⟩ := optStrTruthy_eq_some _ _ htr
        intro rid r hr
        dsimp only at hr
        rw [countRepL_eraseRow s.orders oid od h1 ho rid, hodc]
        simp only [Option.some.injEq]
        by_cases hcd : cur = rid
        · rw [hcd] at hr
          rw [findRow_bumpRep_self, Option.map_eq_some'] at hr
          obtain ⟨r0, hfr, hr0⟩ := hr
          subst hr0
          have h40 := h4 rid r0 hfr
          simp only [countRep] at h40
          dsimp only
          rw [if_pos hcd]
          omega
        · rw [findRow_bumpRep_ne _ _ _ _ (fun h => hcd h.symm)] at hr
          have h40 := h4 rid r hr
          simp only [countRep] at h40
          rw [if_neg hcd]
          omega

theorem repStep_bulk (oids : List String) (rep : RepInfo) (s : DB)
    (hrep : rep.id ≠ "") (hnodup : oids.Nodup)
    (hex : ∀ oid ∈ oids, ∃ o, findRow s.orders oid = some o ∧ o.representativeId = none)
    (hc : repConsistent s) :
    repConsistent (applyRepOp (RepOp.bulkAssign oids rep) s) := by
  obtain ⟨h1, h2, h3, h4⟩ := hc
  show repConsistent (bulkAssignRepresentative noFault oids rep s).2
  by_cases hlen : oids.length = 0
  · have hs : (bulkAssignRepresentative noFault oids rep s).2 = s := by
      unfold bulkAssignRepresentative
      rw [if_pos hlen]
    rw [hs]
    exact ⟨h1, h2, h3, h4⟩
  · obtain ⟨hb1, hb2, hb3, hb4⟩ := bulk_orders_spec rep oids s h1 hex hnodup
    obtain ⟨hO, hR⟩ := bulkAssign_state oids rep s hlen
    refine ⟨?_, ?_, ?_, ?_⟩
    · rw [hO]
      exact hb1
    · rw [hR]
      apply keysNodup_bumpRep
      rw [hb2]
      exact h2
    · rw [hO]
      intro p hp
      rcases hb3 p hp with h | h
      · rw [h]
        simp only [ne_eq, Option.some.injEq]
        exact hrep
      · exact h3 p h
    · simp only [countRep, hO, hR]
      intro rid r hr
      rw [hb4 rid]
      by_cases hrd : rep.id = rid
      · rw [hrd, hb2] at hr
        rw [findRow_bumpRep_self, Option.map_eq_some'] at hr
        obtain ⟨r0, hfr, hr0⟩ := hr
        subst hr0
        have h40 := h4 rid r0 hfr
        simp only [countRep] at h40
        dsimp only
        rw [if_pos hrd]
        omega
      · rw [hb2, findRow_bumpRep_ne _ _ _ _ (fun h => hrd h.symm)] at hr
        have h40 := h4 rid r hr
        simp only [countRep] at h40
        rw [if_neg hrd]
        omega

theorem repStep (op : RepOp) (s : DB) (hok : repOpOK op s) (hc : repConsistent s) :
    repConsistent (applyRepOp op s) := by
  cases op with
  | assign oid rep => exact repStep_assign oid rep s hok hc
  | unassign oid => exact repStep_unassign oid s hc
  | bulkAssign oids rep => exact repStep_bulk oids rep s hok.1 hok.2.1 hok.2.2 hc
  | delOrder oid => exact repStep_delete oid s hc

/-- C3 counterexample: starting from a consistent store, one
`bulkAssignRepresentative` call on an order that already has a representative
leaves `r1.assignedOrders` at 1 while no order points at `r1` any more —
the bulk path increments the new representative but never decrements the
previous one. -/
theorem C3_counterexample :
    repConsistent c3DB ∧
    Option.map RepRow.assignedOrders (findRow c3After.representatives "r1") = some 1 ∧
    countRep c3After "r1" = 0 ∧
    ¬ repConsistent c3After :=
  ⟨repConsistent_of_forall_mem _ (by unfold keysNodup; decide) (by unfold keysNodup; decide)
      (by decide) (by decide),
   by decide, by decide,
   fun h => absurd (h.2.2.2 "r1" { assignedOrders := 1 } (by decide)) (by decide)⟩

/-- C3 (amended): for every representative R, `R.assignedOrders` equals the
count of orders with `representativeId == R.id` after any sequence of
assign / unassign / bulk-assign / delete-order operations on the healthy
store, starting from a consistent state — provided each assignment's
representative has a truthy id and each bulk-assign targets distinct
existing orders that have no representative yet (without that proviso the
claim fails, see the counterexample). -/
theorem C3_amended (ops : List RepOp) (s : DB)
    (hc : repConsistent s) (hops : repSeqOK ops s) :
    repConsistent (applyRepSeq ops s) := by
  induction ops generalizing s with
  | nil => exact hc
  | cons op rest ih => exact ih (applyRepOp op s) (repStep op s hops.1 hc) hops.2

/-- C3 witness: the amended theorem applied to a concrete two-operation
sequence (unassign `o1` from `r1`, then bulk-assign it to `r2`). -/
theorem C3_amended_witness :
    repConsistent (applyRepSeq [RepOp.unassign "o1", c3Op] c3DB) :=
  C3_amended [RepOp.unassign "o1", c3Op] c3DB
    (repConsistent_of_forall_mem _ (by unfold keysNodup; decide) (by unfold keysNodup; decide)
      (by decide) (by decide))
    ⟨trivial,
     ⟨by decide, by decide,
      fun oid h => by
        rw [show oid = "o1" from by
          cases h with
          | head => rfl
          | tail _ h2 => cases h2]
        exact ⟨{ userId := "", representativeId := none,
                 representativeName := none, status := OrderStatus.ready }, by decide, rfl⟩⟩,
     trivial⟩
